import Mathlib

/-!
Verification of the ARM DAP communication interface and the DWARF
source-to-instruction resolver of probe-rs, against a shallow embedding of
`src/probe-rs/src/architecture/arm/communication_interface.rs`,
`src/probe-rs/src/debug/source_instructions.rs`,
`src/probe-rs/src/debug/instructions/{sequence,block,breakpoint}.rs`.

Machine integers (u8/u32/u64) are modelled as `Nat`; the bit-field
operations that matter (the 4-bit `DP_BANK_SEL` field of SELECT) carry
explicit `% 16` / division arithmetic.  External collaborators (the probe
transport, the debug-sequence provider, DWARF DIE lookups, file-table
lookups) are modelled as explicit parameters: the transport as a success
oracle indexed by the number of wire transactions attempted so far, the
lookups as total functions into `Option`.
-/

namespace ProbeRs

/-! ### DAP data model
Embedded from `communication_interface.rs`.  `SelectV1`/`SelectV3`/`Select1`
are `u32` bit-field wrappers defined in the (external) `dp` module; only the
operations used by `communication_interface.rs` are modelled, with the field
layouts given by the spec's register reference (DPv1-style SELECT:
bits 0-3 `DP_BANK_SEL`, bits 4-7 `AP_BANK_SEL`, bits 24-31 `AP_SEL`;
DPv3-style SELECT: bits 0-3 `DP_BANK_SEL`, bits 4-31 `ADDR`; SELECT1:
bits 0-31 `ADDR[63:32]`).  Each setter replaces its field, truncating the
written value to the field width (bit-field semantics). -/

structure SelectV1 where
  bits : Nat
deriving DecidableEq, Repr

def SelectV1.dp_bank_sel (s : SelectV1) : Nat := s.bits % 16

def SelectV1.set_dp_bank_sel (s : SelectV1) (bank : Nat) : SelectV1 :=
  ⟨s.bits - s.bits % 16 + bank % 16⟩

/-- `AP_BANK_SEL`, bits 4-7 of the DPv1-style SELECT. -/
def SelectV1.set_ap_bank_sel (s : SelectV1) (v : Nat) : SelectV1 :=
  ⟨s.bits - (s.bits / 16 % 16) * 16 + (v % 16) * 16⟩

/-- `AP_SEL`, bits 24-31 of the DPv1-style SELECT. -/
def SelectV1.set_ap_sel (s : SelectV1) (v : Nat) : SelectV1 :=
  ⟨s.bits - (s.bits / 16777216 % 256) * 16777216 + (v % 256) * 16777216⟩

structure SelectV3 where
  bits : Nat
deriving DecidableEq, Repr

def SelectV3.dp_bank_sel (s : SelectV3) : Nat := s.bits % 16

def SelectV3.set_dp_bank_sel (s : SelectV3) (bank : Nat) : SelectV3 :=
  ⟨s.bits - s.bits % 16 + bank % 16⟩

/-- `ADDR`, bits 4-31 (28 bits) of the DPv3-style SELECT. -/
def SelectV3.set_addr (s : SelectV3) (v : Nat) : SelectV3 :=
  ⟨s.bits - (s.bits / 16 % 268435456) * 16 + (v % 268435456) * 16⟩

structure Select1 where
  bits : Nat
deriving DecidableEq, Repr

/-- `ADDR[63:32]`, the full 32 bits of SELECT1. -/
def Select1.set_addr (_ : Select1) (v : Nat) : Select1 :=
  ⟨v % 4294967296⟩

/-- `SelectCache` from `communication_interface.rs` (lines 202-220): the
mirror of the last value written to the target's SELECT register(s). -/
inductive SelectCache where
  | DPv1 (s : SelectV1)
  | DPv3 (s : SelectV3) (s1 : Select1)
deriving DecidableEq, Repr

def SelectCache.dp_bank_sel : SelectCache → Nat
  | .DPv1 s => s.dp_bank_sel
  | .DPv3 s _ => s.dp_bank_sel

def SelectCache.set_dp_bank_sel : SelectCache → Nat → SelectCache
  | .DPv1 s, bank => .DPv1 (s.set_dp_bank_sel bank)
  | .DPv3 s s1, bank => .DPv3 (s.set_dp_bank_sel bank) s1

/-- `DebugPortVersion` (defined in the external `dp` module; the variant set
is given by the spec's data model and by the `match` in `access_ports`). -/
inductive DebugPortVersion where
  | DPv0
  | DPv1
  | DPv2
  | DPv3
  | Unsupported (raw : Nat)
deriving DecidableEq, Repr

/-- `DpState::new` (lines 228-235): fresh per-DP state with the placeholder
version and a zeroed DPv1-style SELECT cache. -/
structure DpState where
  debug_port_version : DebugPortVersion
  current_select : SelectCache
deriving DecidableEq, Repr

def DpState.new : DpState :=
  { debug_port_version := .Unsupported 0xFF
    current_select := .DPv1 ⟨0⟩ }

/-! ### Wire model for raw DP register accesses

A wire event is recorded for every *successful* raw transaction issued by
the probe; a failed transaction latches nothing on the target and so leaves
the event trace unchanged.  The transport is an oracle `Nat → Bool` mapping
the index of the attempted transaction to its outcome; `tick` counts
attempts. -/

inductive WireEv where
  | dpSelectV1 (bits : Nat)
  | dpSelectV3 (bits : Nat)
  | dpSelect1 (bits : Nat)
  | dpReg (addr : Nat) (value : Nat)
  | apReg (addr : Nat) (value : Nat)
deriving DecidableEq, Repr

def WireEv.isSelect : WireEv → Bool
  | .dpSelectV1 _ => true
  | .dpSelectV3 _ => true
  | .dpSelect1 _ => true
  | .dpReg _ _ => false
  | .apReg _ _ => false

structure DapRun where
  cache : SelectCache
  trace : List WireEv
  tick : Nat
deriving DecidableEq, Repr

def DapRun.fresh : DapRun := ⟨DpState.new.current_select, [], 0⟩

/-- One raw wire transaction: consult the transport oracle at the current
tick; on success append the event (the target latches it). -/
def attemptWrite (tr : Nat → Bool) (r : DapRun) (e : WireEv) : DapRun × Bool :=
  if tr r.tick then ({ r with trace := r.trace ++ [e], tick := r.tick + 1 }, true)
  else ({ r with tick := r.tick + 1 }, false)

/-- `ArmCommunicationInterface::select_dp_and_dp_bank` (lines 519-554),
restricted to a DP that is already current (so `select_dp` returns the
existing state without touching the wire).  Faithful points: addresses
other than 0x0/0x4 need no banking; the cache is mutated *before* the wire
write of SELECT; for a DPv3 cache only the low SELECT word is written.
The SELECT register itself lives at DP address 0x8, so the nested
`write_dp_register` performs no further bank selection.  The boolean result
is `false` when the wire write failed (the `?` path of the source). -/
def select_dp_and_dp_bank (tr : Nat → Bool) (r : DapRun) (bank : Option Nat)
    (addr : Nat) : DapRun × Bool :=
  if addr ≠ 0 ∧ addr ≠ 4 then (r, true)
  else
    let bank := bank.getD 0
    if bank = r.cache.dp_bank_sel then (r, true)
    else
      let r := { r with cache := r.cache.set_dp_bank_sel bank }
      match r.cache with
      | .DPv1 s => attemptWrite tr r (.dpSelectV1 s.bits)
      | .DPv3 s _ => attemptWrite tr r (.dpSelectV3 s.bits)

/-- `DapAccess::write_raw_dp_register` (lines 641-652): bank-select, then
the raw register write itself. -/
def write_raw_dp_register (tr : Nat → Bool) (r : DapRun) (bank : Option Nat)
    (addr : Nat) (value : Nat) : DapRun × Bool :=
  match select_dp_and_dp_bank tr r bank addr with
  | (r, false) => (r, false)
  | (r, true) => attemptWrite tr r (.dpReg addr value)

/-- `ApAddress` from the data model: a v1 port number or a v2 base
address (`ApV2::Root` carrying an optional base). -/
inductive ApAddress where
  | V1 (port : Nat)
  | V2 (base : Option Nat)
deriving DecidableEq, Repr

/-- Outcome of an AP-path access: `ok`/`err` mirror `Result`, `panicked`
is the `unreachable!` arm for a mismatched AP-kind/cache-kind pair. -/
inductive DapOutcome where
  | ok
  | err
  | panicked
deriving DecidableEq, Repr

/-- `ArmCommunicationInterface::select_ap_and_ap_bank` (lines 556-596),
restricted to a DP that is already current.  Faithful points: the previous
SELECT cache is saved, then the cache is mutated in place *before* any wire
write; for (APv1, DPv1 cache) `AP_SEL` and `AP_BANK_SEL` are set from the
port and from `(ap_register_address & 0xFF) >> 4`; for (APv2, DPv3 cache)
`address = base.unwrap_or(0) + ap_register_address` is split into the
SELECT `ADDR` field (`(address >> 4) & 0xFFFF_FFFF`, truncated to the
field) and SELECT1 (`address >> 32`); a mismatched pair hits
`unreachable!`.  When the new cache differs from the saved one, SELECT is
written (DPv1) or SELECT followed by SELECT1 (DPv3), each `?`-propagating
on failure, so SELECT1 may never reach the wire even though the cache
already holds its new value. -/
def select_ap_and_ap_bank (tr : Nat → Bool) (r : DapRun) (ap : ApAddress)
    (ap_register_address : Nat) : DapRun × DapOutcome :=
  let previous_select := r.cache
  match ap, r.cache with
  | .V1 port, .DPv1 s =>
    let ap_reg := ap_register_address % 256
    let ap_bank := ap_reg / 16
    let s := (s.set_ap_sel port).set_ap_bank_sel ap_bank
    let r := { r with cache := .DPv1 s }
    if previous_select ≠ r.cache then
      match attemptWrite tr r (.dpSelectV1 s.bits) with
      | (r, true) => (r, .ok)
      | (r, false) => (r, .err)
    else (r, .ok)
  | .V2 base, .DPv3 s s1 =>
    let address := base.getD 0 + ap_register_address
    let s := s.set_addr (address / 16 % 4294967296)
    let s1 := s1.set_addr (address / 4294967296)
    let r := { r with cache := .DPv3 s s1 }
    if previous_select ≠ r.cache then
      match attemptWrite tr r (.dpSelectV3 s.bits) with
      | (r, false) => (r, .err)
      | (r, true) =>
        match attemptWrite tr r (.dpSelect1 s1.bits) with
        | (r, true) => (r, .ok)
        | (r, false) => (r, .err)
    else (r, .ok)
  | _, _ => (r, .panicked)

/-- `DapAccess::write_raw_ap_register` (lines 683-695): AP/bank select,
then the raw AP register write against the low byte of the address. -/
def write_raw_ap_register (tr : Nat → Bool) (r : DapRun) (ap : ApAddress)
    (addr : Nat) (value : Nat) : DapRun × DapOutcome :=
  match select_ap_and_ap_bank tr r ap addr with
  | (r, .ok) =>
    match attemptWrite tr r (.apReg (addr % 256) value) with
    | (r, true) => (r, .ok)
    | (r, false) => (r, .err)
  | (r, o) => (r, o)

/-- Run a sequence of raw DP register writes, stopping at the first
failure (the caller's `?` propagation). -/
def runDpWrites (tr : Nat → Bool) (r : DapRun) :
    List (Option Nat × Nat × Nat) → DapRun × Bool
  | [] => (r, true)
  | w :: ws =>
    match write_raw_dp_register tr r w.1 w.2.1 w.2.2 with
    | (r, false) => (r, false)
    | (r, true) => runDpWrites tr r ws

/-- Number of SELECT writes that reached the wire. -/
def countSelectWrites (t : List WireEv) : Nat := t.countP (·.isSelect)

/-- Value carried by the most recent successful SELECT wire write. -/
def lastSelectWrite (t : List WireEv) : Option Nat :=
  (t.filterMap fun e =>
    match e with
    | .dpSelectV1 b => some b
    | .dpSelectV3 b => some b
    | _ => none).getLast?

/-- Value carried by the most recent successful SELECT1 wire write. -/
def lastSelect1Write (t : List WireEv) : Option Nat :=
  (t.filterMap fun e =>
    match e with
    | .dpSelect1 b => some b
    | _ => none).getLast?

/-- The low SELECT word mirrored by a cache value (for a DPv3 cache, the
`SELECT` register proper; `SELECT1` is carried separately). -/
def SelectCache.selectWord : SelectCache → Nat
  | .DPv1 s => s.bits
  | .DPv3 s _ => s.bits

/-! ### Disconnect, drop, reinitialize, access_ports -/

/-- `DpAddress` from the data model (`Default` or `Multidrop(u32)`). -/
inductive DpAddress where
  | default
  | multidrop (targetId : Nat)
deriving DecidableEq, Repr

/-- Observable invocations of the debug-sequence provider and the transport
during shutdown.  `warnFailedStop dp` is the `tracing::warn!` emitted when
`debug_port_connect` fails during disconnect. -/
inductive StopEv where
  | stop (dp : DpAddress)
  | connect (dp : DpAddress)
  | warnFailedStop (dp : DpAddress)
  | rawFlush
deriving DecidableEq, Repr

/-- `ArmDebugState::disconnect` for `Initialized` (lines 178-200): stop the
current DP (errors ignored), then for every other known DP connect and, if
the connect succeeded, stop it (else log a warning); finally flush the
transport.  `knownDps` is the key list of the `dps` map; `connectOk` is the
outcome of `debug_port_connect` for each DP. -/
def Initialized.disconnect (current : DpAddress) (knownDps : List DpAddress)
    (connectOk : DpAddress → Bool) : List StopEv :=
  .stop current ::
    ((knownDps.filter (· ≠ current)).flatMap fun dp =>
      if connectOk dp then [.connect dp, .stop dp]
      else [.connect dp, .warnFailedStop dp]) ++ [.rawFlush]

/-- `ArmCommunicationInterface::close` (lines 263-269): take the probe, run
the full disconnect sequence on it, and hand the raw probe back.  The first
component is the trace of hook invocations, the second the returned probe
handle. -/
def ArmCommunicationInterface.close (probe : Nat) (current : DpAddress)
    (knownDps : List DpAddress) (connectOk : DpAddress → Bool) :
    List StopEv × Nat :=
  (Initialized.disconnect current knownDps connectOk, probe)

/-- `impl Drop for ArmCommunicationInterface` (lines 246-255): the body only
logs a debug message; the disconnect code is commented out behind a
`TODO`.  No hook is invoked and no flush is issued. -/
def ArmCommunicationInterface.dropTrace (_current : DpAddress)
    (_knownDps : List DpAddress) (_connectOk : DpAddress → Bool) : List StopEv :=
  []

/-- The `Initialized` interface for the probe-slot claims: the probe slot
(`Option<Box<dyn DapProbe>>`), the current DP, and the known DP set.
The `Initialized` type-state itself is carried by the Lean type: every
value of this type is in the Initialized phase. -/
structure ArmCommIf where
  probe : Option Nat
  current_dp : DpAddress
  dps : List DpAddress
deriving DecidableEq, Repr

/-- Outcomes of the external calls made by `try_setup`:
`debug_port_setup` and the subsequent `select_dp`. -/
structure SetupOracle where
  setupOk : Bool
  selectOk : Bool
deriving DecidableEq, Repr

/-- `ArmCommunicationInterface::<Initialized>::try_setup` (lines 411-435):
on `debug_port_setup` failure the probe is returned in the error; otherwise
a fresh Initialized interface is built and `select_dp dp` is run (which
creates the single known DP state); on its failure the probe is taken back
out of the partially-built interface and returned in the error. -/
def try_setup (probe : Nat) (dp : DpAddress) (o : SetupOracle) :
    Except Nat ArmCommIf :=
  if o.setupOk then
    if o.selectOk then .ok { probe := some probe, current_dp := dp, dps := [dp] }
    else .error probe
  else .error probe

/-- `ArmProbeInterface::reinitialize` (lines 280-304): steal the probe out
of `self` (the `expect` panics when the slot is empty, modelled as `none`),
disconnect, re-run `try_setup` for the current DP; on success replace
`self` wholesale, on failure put the probe back into `self`.  The `Bool`
reports the `Result` the caller sees. -/
def reinitialize (st : ArmCommIf) (o : SetupOracle) :
    Option (ArmCommIf × Bool) :=
  st.probe.map fun p =>
    match try_setup p st.current_dp o with
    | .ok reinitialized => (reinitialized, true)
    | .error p' => ({ st with probe := some p' }, false)

/-- States of the Initialized interface reachable through the public
surface: freshly produced by a successful `try_setup`, or the result of a
`reinitialize` call (successful or failed) on a reachable state. -/
inductive ReachableIf : ArmCommIf → Prop where
  | setup (probe : Nat) (dp : DpAddress) (o : SetupOracle) (st : ArmCommIf) :
      try_setup probe dp o = .ok st → ReachableIf st
  | reinit (st st' : ArmCommIf) (o : SetupOracle) (ok : Bool) :
      ReachableIf st → reinitialize st o = some (st', ok) → ReachableIf st'

/-- Result of `access_ports` as observable by the caller: a normal result,
an `ArmError`, or a panic (`unreachable!`). -/
inductive ApEnumeration where
  | ok (aps : List Nat)
  | armError
  | panicked
deriving DecidableEq, Repr

/-- `ArmProbeInterface::access_ports` (lines 326-344), after `select_dp`
has produced the DP state: dispatch on the learned debug port version.
`v1aps`/`v2aps` stand for the results of the external APv1 walk and APv2
ROM-table enumeration. -/
def access_ports (version : DebugPortVersion) (v1aps v2aps : List Nat) :
    ApEnumeration :=
  match version with
  | .DPv0 => .ok v1aps
  | .DPv1 => .ok v1aps
  | .DPv2 => .ok v1aps
  | .DPv3 => .ok v2aps
  | .Unsupported _ => .panicked

/-- The debug port version held in a DP's state after `select_dp` ran its
handshake (lines 471-513): a freshly inserted state gets the version parsed
out of DPIDR; an existing state keeps its version. -/
def versionAfterSelectDp (existing : Option DebugPortVersion)
    (dpidrVersion : DebugPortVersion) : DebugPortVersion :=
  match existing with
  | some v => v
  | none => dpidrVersion

/-! ### DWARF line-program model

Common to `debug/source_instructions.rs` and `debug/instructions/*`.
A `LineRow` carries the fields of a `gimli::LineRow` that the code reads;
`line` is gimli's `Option<NonZeroU64>`, modelled as `Option Nat`. -/

/-- probe-rs `ColumnType`: `LeftEdge` or a 1-based column. -/
inductive ColumnType where
  | leftEdge
  | column (c : Nat)
deriving DecidableEq, Repr

/-- `ColumnType::from(u64)` (external `debug` module): 0 denotes the left
edge. -/
def ColumnType.ofNat (n : Nat) : ColumnType :=
  if n = 0 then .leftEdge else .column n

/-- The DWARF language attribute, restricted to the cases the code
distinguishes. -/
inductive DwLang where
  | c99
  | c11
  | c17
  | other (code : Nat)
deriving DecidableEq, Repr

def DwLang.isCFamily : DwLang → Bool
  | .c99 => true
  | .c11 => true
  | .c17 => true
  | .other _ => false

structure LineRow where
  address : Nat
  file_index : Nat
  line : Option Nat
  column : ColumnType
  is_stmt : Bool
  prologue_end : Bool
  epilogue_begin : Bool
  end_sequence : Bool
deriving DecidableEq, Repr

/-- `is_prologue_complete` — identical in
`debug/instructions/sequence.rs` (lines 265-292) and
`debug/source_instructions.rs` (lines 420-447): the row's `prologue_end`
flag, or — for C99/C11/C17 when a previous row exists — the GDB/GCC
heuristic: the row ends the sequence, or it is a statement sharing the
previous row's file index whose line differs from the previous row's line
*or is absent*. -/
def is_prologue_complete (row : LineRow) (program_language : DwLang)
    (previous_row : Option LineRow) : Bool :=
  row.prologue_end ||
    (!row.prologue_end && program_language.isCFamily &&
      match previous_row with
      | some prev_row =>
          row.end_sequence ||
            (row.is_stmt &&
              (row.file_index == prev_row.file_index &&
                (row.line != prev_row.line || row.line == none)))
      | none => false)

/-- Resolved file/directory data for a file index:
`DebugInfo::find_file_and_directory`, an external catalogue lookup,
modelled as a function (names as identifiers). -/
abbrev FileDirLookup := Nat → Option (Option Nat × Option Nat)

/-- `SourceLocation` (`source_instructions.rs` lines 200-213; the
`instructions` module uses the same shape). -/
structure SourceLocation where
  line : Option Nat
  column : Option ColumnType
  file : Option Nat
  directory : Option Nat
deriving DecidableEq, Repr

/-- `VerifiedBreakpoint`: a halt address plus its resolved source
location. -/
structure VerifiedBreakpoint where
  address : Nat
  source_location : SourceLocation
deriving DecidableEq, Repr

/-- `DebugError`, restricted to the variants produced by the resolver:
`WarnAndContinue` (continuable) and the `Other(anyhow!...)` error of
`for_source_location`, which carries the requested path, line and column
in its message. -/
inductive DebugError where
  | warnAndContinue
  | other (path : Nat) (line : Nat) (column : Option Nat)
deriving DecidableEq, Repr

namespace SrcInstr

/-! Embedding of `debug/source_instructions.rs`: the single-prologue-split
block decomposition, `match_address` and `for_address`. -/

/-- `InstructionType` (lines 565-577). -/
inductive InstructionType where
  | Prologue
  | HaltLocation
  | Unspecified
deriving DecidableEq, Repr

/-- `Instruction` (lines 579-594). -/
structure Instruction where
  address : Nat
  file_index : Nat
  line : Option Nat
  column : ColumnType
  instruction_type : InstructionType
deriving DecidableEq, Repr

/-- `Block` (lines 469-473): `lo ..= hi` is `included_addresses`. -/
structure Block where
  lo : Nat
  hi : Nat
  instructions : List Instruction
deriving DecidableEq, Repr

/-- The instruction built by `Block::add` (lines 526-562): line-0
workaround (inherit the previous row's line when this row's line is absent
but file and column agree), then classification by `prologue_completed`,
`epilogue_begin` and `is_stmt`. -/
def mkInstruction (prologue_completed : Bool) (row : LineRow)
    (previous_row : Option LineRow) : Instruction :=
  let instruction_line :=
    match previous_row with
    | some prev_row =>
        if row.line = none ∧ prev_row.line ≠ none ∧
            row.file_index = prev_row.file_index ∧ prev_row.column = row.column
        then prev_row.line
        else row.line
    | none => row.line
  { address := row.address
    file_index := row.file_index
    line := instruction_line
    column := row.column
    instruction_type :=
      if !prologue_completed then .Prologue
      else if row.epilogue_begin || row.is_stmt then .HaltLocation
      else .Unspecified }

/-- `Block::add`: append the instruction and extend `included_addresses`
up to the row's address. -/
def Block.add (b : Block) (prologue_completed : Bool) (row : LineRow)
    (previous_row : Option LineRow) : Block :=
  { lo := b.lo
    hi := row.address
    instructions := b.instructions ++ [mkInstruction prologue_completed row previous_row] }

/-- The row loop of `Sequence::from_line_sequence` (lines 350-411): on the
first row where the prologue completes, close the current block and start
a new one at that row's address; `end_sequence` rows stop the loop without
materializing; the trailing block is kept only when non-empty. -/
def from_line_sequence_go (lang : DwLang) :
    List LineRow → Bool → Option LineRow → Block → List Block → List Block
  | [], _, _, block, blocks =>
      if block.instructions.isEmpty then blocks else blocks ++ [block]
  | row :: rest, prologue_completed, previous_row, block, blocks =>
      let fired := !prologue_completed && is_prologue_complete row lang previous_row
      let block' := if fired then ⟨row.address, row.address, []⟩ else block
      let blocks' := if fired then blocks ++ [block] else blocks
      let prologue_completed' := prologue_completed || fired
      if row.end_sequence then
        if block'.instructions.isEmpty then blocks' else blocks' ++ [block']
      else
        from_line_sequence_go lang rest prologue_completed' (some row)
          (block'.add prologue_completed' row previous_row) blocks'

/-- `Sequence` (lines 247-261): `start .. stop` is `address_range`. -/
structure Sequence where
  start : Nat
  stop : Nat
  blocks : List Block
deriving DecidableEq, Repr

/-- `Sequence::from_line_sequence`. -/
def from_line_sequence (lang : DwLang) (start stop : Nat)
    (rows : List LineRow) : Sequence :=
  ⟨start, stop, from_line_sequence_go lang rows false none ⟨start, start, []⟩ []⟩

/-- Proof helper: the flat instruction stream materialized by the row loop
(the concatenation of what the loop feeds into `Block::add`). -/
def materialize (lang : DwLang) :
    List LineRow → Bool → Option LineRow → List Instruction
  | [], _, _ => []
  | row :: rest, prologue_completed, previous_row =>
      let prologue_completed' :=
        prologue_completed || (!prologue_completed && is_prologue_complete row lang previous_row)
      if row.end_sequence then []
      else
        mkInstruction prologue_completed' row previous_row ::
          materialize lang rest prologue_completed' (some row)

/-- All instructions of a block list, in block order. -/
def flattenBlocks (blocks : List Block) : List Instruction :=
  (blocks.map Block.instructions).flatten

/-- Stated from the amended claim C5 (not from the source): the
prologue-completion condition for a C-family row with a previous row — the
row is a statement, shares the previous row's file index, and its line
differs from the previous row's line *or is absent*. -/
def specFires (prev_row row : LineRow) : Bool :=
  row.is_stmt && row.file_index == prev_row.file_index &&
    (row.line != prev_row.line || row.line == none)

/-- Stated from the amended claim C5: the number of rows before the first
one on which `specFires` holds with respect to its predecessor. -/
def specPrologueLen : Option LineRow → List LineRow → Nat
  | _, [] => 0
  | prev, row :: rest =>
    match prev with
    | some p =>
        if specFires p row then 0 else specPrologueLen (some row) rest + 1
    | none => specPrologueLen (some row) rest + 1

/-- Proof infrastructure: the per-block bounds invariant maintained by the
row loop — the block's `lo` is at most its first instruction's address and
its `hi` equals its last instruction's address. -/
def BlockBounds (b : Block) : Prop :=
  (∀ i0 ∈ b.instructions.head?, b.lo ≤ i0.address) ∧
  (∀ il ∈ b.instructions.getLast?, b.hi = il.address)

/-- `Block::match_address` (lines 476-486): only if the block's inclusive
range contains the address, the first `HaltLocation` instruction at an
address `≥ address`. -/
def Block.match_address (b : Block) (address : Nat) : Option Instruction :=
  if b.lo ≤ address ∧ address ≤ b.hi then
    b.instructions.find? fun location =>
      location.instruction_type == .HaltLocation && address ≤ location.address
  else none

/-- `match_address` (lines 132-155): if the sequence covers the address,
the first block producing a match, resolved to a `VerifiedBreakpoint`. -/
def match_address (sequence : Sequence) (address : Nat)
    (fdir : FileDirLookup) : Option VerifiedBreakpoint :=
  if sequence.start ≤ address ∧ address < sequence.stop then
    (sequence.blocks.findSome? fun block => block.match_address address).bind
      fun instruction =>
        (fdir instruction.file_index).map fun fd =>
          { address := instruction.address
            source_location :=
              { line := instruction.line
                column := some instruction.column
                file := fd.1
                directory := fd.2 } }
  else none

/-- `VerifiedBreakpoint::for_address` (lines 31-48) together with
`Sequence::from_address` (lines 299-348): find the line sequence covering
the program counter (else `WarnAndContinue`), build the `Sequence`
(`WarnAndContinue` when it has no blocks), then `match_address`
(`WarnAndContinue` when it finds nothing). -/
def for_address (lang : DwLang) (fdir : FileDirLookup)
    (line_sequences : List (Nat × Nat × List LineRow)) (program_counter : Nat) :
    Except DebugError VerifiedBreakpoint :=
  match line_sequences.find? fun s =>
      decide (s.1 ≤ program_counter) && decide (program_counter < s.2.1) with
  | none => .error .warnAndContinue
  | some (start, stop, rows) =>
    let sequence := from_line_sequence lang start stop rows
    if sequence.blocks.length = 0 then .error .warnAndContinue
    else
      match match_address sequence program_counter fdir with
      | some verified_breakpoint => .ok verified_breakpoint
      | none => .error .warnAndContinue

end SrcInstr

namespace Instr

/-! Embedding of `debug/instructions/{sequence,block}.rs`: the richer block
decomposition with `stepped_from`/`steps_to` edges and inline-aware
boundaries.  The module's `instruction.rs` (the `Instruction` struct,
`InstructionRole` and `Instruction::from_line_row`) is not among the
sources; those pieces are modelled from the spec (§4.4). -/

/-- Modelled from the spec: `InstructionRole` of the absent
`debug/instructions/instruction.rs` — `Prologue | HaltPoint |
EpilogueBegin | Other` (§3 data model). -/
inductive InstructionRole where
  | Prologue
  | HaltPoint
  | EpilogueBegin
  | Other
deriving DecidableEq, Repr

/-- Modelled from the spec: a halt point is a statement boundary or an
epilogue start (glossary; §4.4 role synthesis), so both `HaltPoint` and
`EpilogueBegin` roles are valid halt locations. -/
def InstructionRole.is_halt_location : InstructionRole → Bool
  | .HaltPoint => true
  | .EpilogueBegin => true
  | .Prologue => false
  | .Other => false

structure Instruction where
  address : Nat
  file_index : Nat
  line : Option Nat
  column : ColumnType
  role : InstructionRole
deriving DecidableEq, Repr

/-- Modelled from the spec: `Instruction::from_line_row` of the absent
`instruction.rs` (§4.4): address, file index and column come from the row;
an absent line is inherited from the previous row when file and column
agree and the previous line is present; the role is `Prologue` until the
prologue-complete predicate fires, then `EpilogueBegin` on the
`epilogue_begin` flag, `HaltPoint` on a statement, `Other` otherwise. -/
def Instruction.from_line_row (prologue_completed : Bool) (row : LineRow)
    (previous_row : Option LineRow) : Instruction :=
  let instruction_line :=
    match previous_row with
    | some prev_row =>
        if row.line = none ∧ prev_row.line ≠ none ∧
            row.file_index = prev_row.file_index ∧ prev_row.column = row.column
        then prev_row.line
        else row.line
    | none => row.line
  { address := row.address
    file_index := row.file_index
    line := instruction_line
    column := row.column
    role :=
      if !prologue_completed then .Prologue
      else if row.epilogue_begin then .EpilogueBegin
      else if row.is_stmt then .HaltPoint
      else .Other }

/-- The innermost function DIE covering an address:
`UnitInfo::get_function_dies(debug_info, address, true).map(|ds| ds.last())`,
an external DWARF lookup, modelled as a total function (the error path of
the `Result` is not taken). -/
structure FunctionDie where
  id : Nat
  is_inline : Bool
  high_pc : Option Nat
deriving DecidableEq, Repr

abbrev FunctionLookup := Nat → Option FunctionDie

/-- `Block` (`block.rs` lines 55-66). -/
structure Block where
  is_inlined : Bool
  instructions : List Instruction
  stepped_from : Option Nat
  steps_to : Option Nat
deriving DecidableEq, Repr

/-- The consumption loop of `Block::new` (`block.rs` lines 88-161): pull
instructions off the shared iterator until one of the five boundary rules
fires (first match wins), pushing the current instruction in every case.
Rules 1-3 record `steps_to`; rules 4-5 break without it. -/
def Block.newGo (fdie : FunctionLookup) (block_function : Option FunctionDie) :
    Block → List Instruction → Block × List Instruction
  | block, [] => (block, [])
  | block, instruction :: rest =>
    let next_instruction := rest.head?
    if instruction.role == InstructionRole.Prologue &&
        (next_instruction.map fun ni => ni.role != InstructionRole.Prologue).getD true then
      ({ block with
          instructions := block.instructions ++ [instruction]
          steps_to := next_instruction.map (·.address) }, rest)
    else if (next_instruction.map fun ni =>
        ni.role == InstructionRole.EpilogueBegin).getD true then
      ({ block with
          instructions := block.instructions ++ [instruction]
          steps_to := next_instruction.map (·.address) }, rest)
    else if block.is_inlined &&
        (block_function.map fun f =>
          next_instruction.map (·.address) == f.high_pc).getD false then
      ({ block with
          instructions := block.instructions ++ [instruction]
          steps_to := next_instruction.map (·.address) }, rest)
    else if block_function.isSome &&
        block_function != (next_instruction.bind fun ni => fdie ni.address) then
      ({ block with instructions := block.instructions ++ [instruction] }, rest)
    else if (next_instruction.map fun ni =>
        ((ni.file_index != instruction.file_index) || (ni.line != instruction.line)) &&
        (instruction.role == InstructionRole.HaltPoint ||
          instruction.role == InstructionRole.Other) &&
        ni.role == InstructionRole.HaltPoint).getD false then
      ({ block with instructions := block.instructions ++ [instruction] }, rest)
    else
      Block.newGo fdie block_function
        { block with instructions := block.instructions ++ [instruction] } rest

/-- `Block::new` (`block.rs` lines 69-163): look up the innermost function
DIE at the starting address, classify the block as inlined, then consume
instructions.  Returns the block and the unconsumed remainder of the
iterator. -/
def Block.new (fdie : FunctionLookup) (starting_address : Nat)
    (stepped_from : Option Nat) (block_instructions : List Instruction) :
    Block × List Instruction :=
  let block_function := fdie starting_address
  Block.newGo fdie block_function
    { is_inlined := (block_function.map (·.is_inline)).getD false
      instructions := []
      stepped_from := stepped_from
      steps_to := none }
    block_instructions

theorem Block.newGo_step (fdie : FunctionLookup) (bf : Option FunctionDie)
    (block : Block) (instruction : Instruction) (rest : List Instruction) :
    ((Block.newGo fdie bf block (instruction :: rest)).1.instructions
        = block.instructions ++ [instruction] ∧
      (Block.newGo fdie bf block (instruction :: rest)).2 = rest) ∨
      Block.newGo fdie bf block (instruction :: rest)
        = Block.newGo fdie bf
            { block with instructions := block.instructions ++ [instruction] } rest := by
  simp only [Block.newGo]
  split_ifs <;> simp

theorem Block.newGo_cons_length (fdie : FunctionLookup)
    (bf : Option FunctionDie) :
    ∀ (rest : List Instruction) (instruction : Instruction) (block : Block),
      (Block.newGo fdie bf block (instruction :: rest)).2.length ≤ rest.length := by
  intro rest
  induction rest with
  | nil =>
    intro instruction block
    rcases Block.newGo_step fdie bf block instruction [] with h | h
    · simp [h.2]
    · simp [h, Block.newGo]
  | cons j rest2 ih =>
    intro instruction block
    rcases Block.newGo_step fdie bf block instruction (j :: rest2) with h | h
    · simp [h.2]
    · rw [h]
      exact (ih j _).trans (Nat.le_succ _)

theorem Block.newGo_flatten (fdie : FunctionLookup) (bf : Option FunctionDie) :
    ∀ (l : List Instruction) (block : Block),
      (Block.newGo fdie bf block l).1.instructions
          ++ (Block.newGo fdie bf block l).2
        = block.instructions ++ l := by
  intro l
  induction l with
  | nil => intro block; simp [Block.newGo]
  | cons instruction rest ih =>
    intro block
    rcases Block.newGo_step fdie bf block instruction rest with h | h
    · rw [h.1, h.2, List.append_assoc]
      rfl
    · rw [h, ih]
      simp

/-- The recursion of `Sequence::build_blocks`, made structural on a fuel
counter: since `Block::new` always consumes at least one instruction, a
fuel equal to the instruction count (as supplied by `build_blocks`) is
never exhausted, so the fuel-out branch is unreachable. -/
def build_blocks_go (fdie : FunctionLookup) :
    Nat → Option Block → List Instruction → List Block
  | _, _, [] => []
  | 0, _, _ :: _ => []
  | fuel + 1, previous_block, instruction :: rest =>
    let stepped_from := previous_block.bind fun prev_block =>
      if prev_block.steps_to = some instruction.address then
        (prev_block.instructions.getLast?).map (·.address)
      else none
    let res := Block.new fdie instruction.address stepped_from (instruction :: rest)
    res.1 :: build_blocks_go fdie fuel (some res.1) res.2

/-- `Sequence::build_blocks` (`sequence.rs` lines 225-256): repeatedly
carve a block off the front of the instruction list; link `stepped_from`
when the previous block's `steps_to` names the new block's first address.
No sorting is performed afterwards. -/
def build_blocks (fdie : FunctionLookup) (previous_block : Option Block)
    (instrs : List Instruction) : List Block :=
  build_blocks_go fdie instrs.length previous_block instrs

/-- `Sequence` (`sequence.rs` lines 18-37): `start .. stop` is
`address_range`. -/
structure Sequence where
  start : Nat
  stop : Nat
  blocks : List Block
deriving DecidableEq, Repr

/-- The materialization loop of `Sequence::from_line_sequence`
(`sequence.rs` lines 172-195): run the prologue predicate, stop at
`end_sequence`, synthesize one `Instruction` per remaining row. -/
def materialize (lang : DwLang) :
    List LineRow → Bool → Option LineRow → List Instruction
  | [], _, _ => []
  | row :: rest, prologue_completed, previous_row =>
      let prologue_completed' :=
        prologue_completed || (!prologue_completed && is_prologue_complete row lang previous_row)
      if row.end_sequence then []
      else
        Instruction.from_line_row prologue_completed' row previous_row ::
          materialize lang rest prologue_completed' (some row)

/-- `Sequence::from_line_sequence` (`sequence.rs` lines 152-220):
materialize the rows, then decompose into blocks. -/
def from_line_sequence (fdie : FunctionLookup) (lang : DwLang)
    (start stop : Nat) (rows : List LineRow) : Sequence :=
  ⟨start, stop, build_blocks fdie none (materialize lang rows false none)⟩

/-- All instructions of a block list, in block order. -/
def flattenBlocks (blocks : List Block) : List Instruction :=
  (blocks.map Block.instructions).flatten

/-- `NonZeroU64::new`. -/
def nonZeroNew (n : Nat) : Option Nat :=
  if n = 0 then none else some n

/-- `Block::match_location` (`block.rs` lines 183-215): with a column, the
first halt instruction matching file, line and column exactly, falling
back *within the same block* to the first halt instruction matching file
and line; without a column, the file/line match only. -/
def Block.match_location (b : Block) (matching_file_index : Option Nat)
    (line : Nat) (column : Option Nat) : Option Instruction :=
  match column with
  | some supplied_column =>
    (b.instructions.find? fun location =>
        location.role.is_halt_location &&
        matching_file_index == some location.file_index &&
        nonZeroNew line == location.line &&
        ColumnType.ofNat supplied_column == location.column).orElse fun _ =>
      b.instructions.find? fun location =>
        location.role.is_halt_location &&
        matching_file_index == some location.file_index &&
        nonZeroNew line == location.line
  | none =>
    b.instructions.find? fun location =>
      location.role.is_halt_location &&
      matching_file_index == some location.file_index &&
      nonZeroNew line == location.line

/-- Modelled from the spec: `Sequence::haltpoint_near_location`, called by
`VerifiedBreakpoint::for_source_location` (`breakpoint.rs` line 106) but
absent from the sources.  Mirrors the parallel `match_location` helper of
`source_instructions.rs` (lines 158-188): the first block producing a
`Block::match_location` match, resolved to a `VerifiedBreakpoint`. -/
def Sequence.haltpoint_near_location (s : Sequence) (fdir : FileDirLookup)
    (matching_file_index : Option Nat) (line : Nat) (column : Option Nat) :
    Option VerifiedBreakpoint :=
  (s.blocks.findSome? fun block =>
      block.match_location matching_file_index line column).bind
    fun instruction =>
      (fdir instruction.file_index).map fun fd =>
        { address := instruction.address
          source_location :=
            { line := instruction.line
              column := some instruction.column
              file := fd.1
              directory := fd.2 } }

/-- A compilation unit's line program as seen by `for_source_location`:
the file-name table (`file_count` entries, with `get_path` the external
`DebugInfo::get_path` lookup) and the line sequences produced by
`line_program.sequences()` (`none` models that call failing, which the
code skips with `continue`). -/
structure LineProgram where
  file_count : Nat
  get_path : Nat → Option Nat
  line_sequences : Option (List (Nat × Nat × List LineRow))

/-- A `UnitInfo`: its language and (optionally) its line program. -/
structure UnitInfo where
  lang : DwLang
  line_program : Option LineProgram

/-- The file-table scan of `for_source_location` (`breakpoint.rs` lines
74-91): the first file index whose resolved path is path-equal to the
requested path (`canonical_path_eq` is the external predicate `patheq`). -/
def LineProgram.matching_file_index (lp : LineProgram)
    (patheq : Nat → Nat → Bool) (path : Nat) : Option Nat :=
  (List.range lp.file_count).find? fun file_index =>
    ((lp.get_path file_index).map fun combined_path =>
      patheq path combined_path).getD false

/-- `VerifiedBreakpoint::for_source_location` (`breakpoint.rs` lines
60-115): scan units in order; skip units without a line program, without a
path-equal file name, or whose sequences cannot be produced; within a
matching unit, return the first sequence's first located breakpoint; if
nothing matches anywhere, return the error carrying the requested path,
line and column. -/
def for_source_location (fdie : FunctionLookup) (fdir : FileDirLookup)
    (patheq : Nat → Nat → Bool) :
    List UnitInfo → Nat → Nat → Option Nat → Except DebugError VerifiedBreakpoint
  | [], path, line, column => .error (.other path line column)
  | program_unit :: rest, path, line, column =>
    match program_unit.line_program with
    | none => for_source_location fdie fdir patheq rest path line column
    | some lp =>
      match lp.matching_file_index patheq path with
      | none => for_source_location fdie fdir patheq rest path line column
      | some matching_file_index =>
        match lp.line_sequences with
        | none => for_source_location fdie fdir patheq rest path line column
        | some seqs =>
          match seqs.findSome? fun s =>
              (from_line_sequence fdie program_unit.lang s.1 s.2.1
                s.2.2).haltpoint_near_location fdir
                (some matching_file_index) line column with
          | some verified_breakpoint => .ok verified_breakpoint
          | none => for_source_location fdie fdir patheq rest path line column

end Instr

/-! ### Theorems: DAP state machine -/

theorem try_setup_ok_probe {p : Nat} {dp : DpAddress} {o : SetupOracle}
    {st : ArmCommIf} (h : try_setup p dp o = .ok st) : st.probe = some p := by
  unfold try_setup at h
  by_cases h1 : o.setupOk <;> by_cases h2 : o.selectOk <;>
    simp [h1, h2] at h
  subst h
  rfl

/-- C1, counterexample: with a fresh DPv1 DP state (cached `DP_BANK_SEL = 0`)
and a transport whose first wire transaction fails, a raw write to the
banked DP register `{bank: 1, addr: 0x4}` fails, no wire write ever
succeeds, and yet the SELECT cache afterwards holds the *attempted* bank
value 1 rather than the value established by the last successful wire write
(there was none, so the cache should still read bank 0). -/
theorem c1_select_cache_counterexample :
    (write_raw_dp_register (fun _ => false) DapRun.fresh (some 1) 4 0xDEAD).2
        = false ∧
    (write_raw_dp_register (fun _ => false) DapRun.fresh (some 1) 4 0xDEAD).1.trace
        = [] ∧
    (write_raw_dp_register (fun _ => false) DapRun.fresh (some 1) 4 0xDEAD).1.cache
        = .DPv1 ⟨1⟩ ∧
    (write_raw_dp_register (fun _ => false) DapRun.fresh (some 1) 4 0xDEAD).1.cache
        ≠ DapRun.fresh.cache := by
  decide

/-- C1, amended: `select_dp_and_dp_bank` and `select_ap_and_ap_bank` update
the SELECT cache *before* issuing the wire write(s).  Consequences, for
every raw DP or AP register write:
(1) DP write, unbanked address or bank already cached: no SELECT write is
needed — the cache and the latched SELECT/SELECT1 values are unchanged;
(2) DP write needing a bank change (DPv1 or DPv3 cache alike), SELECT wire
write fails: the access fails, the cache holds the attempted value, and
the trace of successful writes is unchanged;
(3) DP write needing a bank change, SELECT wire write succeeds: the cache
agrees with the last successful SELECT write (whether or not the payload
transaction succeeds) and SELECT1 is untouched;
(4) APv1 write on a DPv1 cache, computed SELECT differs, wire write fails:
the access fails, the cache holds the attempted value, trace unchanged;
(5) ditto with the wire write succeeding: the cache agrees with the last
successful SELECT write;
(6) APv1 write on a DPv1 cache, computed SELECT equals the cache: no
SELECT write — the cache and the latched values are unchanged;
(7) APv2 write on a DPv3 cache, pair differs, SELECT wire write fails:
the access fails, the cache holds the attempted pair, trace unchanged;
(8) ditto with SELECT succeeding but SELECT1 failing: the access fails,
the cache holds the attempted pair; its low word agrees with the last
successful SELECT write but no SELECT1 value was ever latched;
(9) ditto with both writes succeeding: the cache agrees with the latched
SELECT and SELECT1 values;
(10)/(11) a mismatched AP-kind/cache-kind pair panics (`unreachable!`),
leaving the run untouched. -/
theorem c1_cache_written_before_wire :
    (∀ (tr : Nat → Bool) (r : DapRun) (bank : Option Nat) (addr v : Nat),
      ¬(addr = 0 ∨ addr = 4) ∨ bank.getD 0 = r.cache.dp_bank_sel →
      (write_raw_dp_register tr r bank addr v).1.cache = r.cache ∧
      lastSelectWrite (write_raw_dp_register tr r bank addr v).1.trace
          = lastSelectWrite r.trace ∧
      lastSelect1Write (write_raw_dp_register tr r bank addr v).1.trace
          = lastSelect1Write r.trace) ∧
    (∀ (tr : Nat → Bool) (r : DapRun) (bank : Option Nat) (addr v : Nat),
      (addr = 0 ∨ addr = 4) → bank.getD 0 ≠ r.cache.dp_bank_sel →
      tr r.tick = false →
      (write_raw_dp_register tr r bank addr v).2 = false ∧
      (write_raw_dp_register tr r bank addr v).1.cache
          = r.cache.set_dp_bank_sel (bank.getD 0) ∧
      (write_raw_dp_register tr r bank addr v).1.trace = r.trace) ∧
    (∀ (tr : Nat → Bool) (r : DapRun) (bank : Option Nat) (addr v : Nat),
      (addr = 0 ∨ addr = 4) → bank.getD 0 ≠ r.cache.dp_bank_sel →
      tr r.tick = true →
      (write_raw_dp_register tr r bank addr v).1.cache
          = r.cache.set_dp_bank_sel (bank.getD 0) ∧
      lastSelectWrite (write_raw_dp_register tr r bank addr v).1.trace
          = some (r.cache.set_dp_bank_sel (bank.getD 0)).selectWord ∧
      lastSelect1Write (write_raw_dp_register tr r bank addr v).1.trace
          = lastSelect1Write r.trace) ∧
    (∀ (tr : Nat → Bool) (s s2 : SelectV1) (t : List WireEv) (k port areg v : Nat),
      (s.set_ap_sel port).set_ap_bank_sel (areg % 256 / 16) = s2 → s2 ≠ s →
      tr k = false →
      (write_raw_ap_register tr ⟨.DPv1 s, t, k⟩ (.V1 port) areg v).2 = .err ∧
      (write_raw_ap_register tr ⟨.DPv1 s, t, k⟩ (.V1 port) areg v).1.cache
          = .DPv1 s2 ∧
      (write_raw_ap_register tr ⟨.DPv1 s, t, k⟩ (.V1 port) areg v).1.trace = t) ∧
    (∀ (tr : Nat → Bool) (s s2 : SelectV1) (t : List WireEv) (k port areg v : Nat),
      (s.set_ap_sel port).set_ap_bank_sel (areg % 256 / 16) = s2 → s2 ≠ s →
      tr k = true →
      (write_raw_ap_register tr ⟨.DPv1 s, t, k⟩ (.V1 port) areg v).1.cache
          = .DPv1 s2 ∧
      lastSelectWrite (write_raw_ap_register tr ⟨.DPv1 s, t, k⟩ (.V1 port) areg v).1.trace
          = some s2.bits) ∧
    (∀ (tr : Nat → Bool) (s : SelectV1) (t : List WireEv) (k port areg v : Nat),
      (s.set_ap_sel port).set_ap_bank_sel (areg % 256 / 16) = s →
      (write_raw_ap_register tr ⟨.DPv1 s, t, k⟩ (.V1 port) areg v).1.cache
          = .DPv1 s ∧
      lastSelectWrite (write_raw_ap_register tr ⟨.DPv1 s, t, k⟩ (.V1 port) areg v).1.trace
          = lastSelectWrite t ∧
      lastSelect1Write (write_raw_ap_register tr ⟨.DPv1 s, t, k⟩ (.V1 port) areg v).1.trace
          = lastSelect1Write t) ∧
    (∀ (tr : Nat → Bool) (s : SelectV3) (s1 : Select1) (s2 : SelectV3)
        (s12 : Select1) (t : List WireEv) (k : Nat) (base : Option Nat) (areg v : Nat),
      s.set_addr ((base.getD 0 + areg) / 16 % 4294967296) = s2 →
      s1.set_addr ((base.getD 0 + areg) / 4294967296) = s12 →
      SelectCache.DPv3 s s1 ≠ .DPv3 s2 s12 →
      tr k = false →
      (write_raw_ap_register tr ⟨.DPv3 s s1, t, k⟩ (.V2 base) areg v).2 = .err ∧
      (write_raw_ap_register tr ⟨.DPv3 s s1, t, k⟩ (.V2 base) areg v).1.cache
          = .DPv3 s2 s12 ∧
      (write_raw_ap_register tr ⟨.DPv3 s s1, t, k⟩ (.V2 base) areg v).1.trace = t) ∧
    (∀ (tr : Nat → Bool) (s : SelectV3) (s1 : Select1) (s2 : SelectV3)
        (s12 : Select1) (t : List WireEv) (k : Nat) (base : Option Nat) (areg v : Nat),
      s.set_addr ((base.getD 0 + areg) / 16 % 4294967296) = s2 →
      s1.set_addr ((base.getD 0 + areg) / 4294967296) = s12 →
      SelectCache.DPv3 s s1 ≠ .DPv3 s2 s12 →
      tr k = true → tr (k + 1) = false →
      (write_raw_ap_register tr ⟨.DPv3 s s1, t, k⟩ (.V2 base) areg v).2 = .err ∧
      (write_raw_ap_register tr ⟨.DPv3 s s1, t, k⟩ (.V2 base) areg v).1.cache
          = .DPv3 s2 s12 ∧
      lastSelectWrite (write_raw_ap_register tr ⟨.DPv3 s s1, t, k⟩ (.V2 base) areg v).1.trace
          = some s2.bits ∧
      lastSelect1Write (write_raw_ap_register tr ⟨.DPv3 s s1, t, k⟩ (.V2 base) areg v).1.trace
          = lastSelect1Write t) ∧
    (∀ (tr : Nat → Bool) (s : SelectV3) (s1 : Select1) (s2 : SelectV3)
        (s12 : Select1) (t : List WireEv) (k : Nat) (base : Option Nat) (areg v : Nat),
      s.set_addr ((base.getD 0 + areg) / 16 % 4294967296) = s2 →
      s1.set_addr ((base.getD 0 + areg) / 4294967296) = s12 →
      SelectCache.DPv3 s s1 ≠ .DPv3 s2 s12 →
      tr k = true → tr (k + 1) = true →
      (write_raw_ap_register tr ⟨.DPv3 s s1, t, k⟩ (.V2 base) areg v).1.cache
          = .DPv3 s2 s12 ∧
      lastSelectWrite (write_raw_ap_register tr ⟨.DPv3 s s1, t, k⟩ (.V2 base) areg v).1.trace
          = some s2.bits ∧
      lastSelect1Write (write_raw_ap_register tr ⟨.DPv3 s s1, t, k⟩ (.V2 base) areg v).1.trace
          = some s12.bits) ∧
    (∀ (tr : Nat → Bool) (s : SelectV1) (t : List WireEv) (k : Nat)
        (base : Option Nat) (areg v : Nat),
      write_raw_ap_register tr ⟨.DPv1 s, t, k⟩ (.V2 base) areg v
          = (⟨.DPv1 s, t, k⟩, .panicked)) ∧
    (∀ (tr : Nat → Bool) (s : SelectV3) (s1 : Select1) (t : List WireEv)
        (k port areg v : Nat),
      write_raw_ap_register tr ⟨.DPv3 s s1, t, k⟩ (.V1 port) areg v
          = (⟨.DPv3 s s1, t, k⟩, .panicked)) := by
  refine ⟨?_, ?_, ?_, ?_, ?_, ?_, ?_, ?_, ?_, ?_, ?_⟩
  · intro tr r bank addr v h
    have hsel : select_dp_and_dp_bank tr r bank addr = (r, true) := by
      rcases h with h | h
      · have h0 : addr ≠ 0 := fun hh => h (Or.inl hh)
        have h4 : addr ≠ 4 := fun hh => h (Or.inr hh)
        simp [select_dp_and_dp_bank, h0, h4]
      · by_cases ha : addr ≠ 0 ∧ addr ≠ 4
        · simp [select_dp_and_dp_bank, ha]
        · simp [select_dp_and_dp_bank, ha, h]
    by_cases hk : tr r.tick <;>
      simp [write_raw_dp_register, hsel, attemptWrite, hk,
        lastSelectWrite, lastSelect1Write, List.filterMap_append]
  · intro tr r bank addr v ha hb hk
    have ha' : ¬(addr ≠ 0 ∧ addr ≠ 4) := by rcases ha with h | h <;> simp [h]
    cases hc : r.cache <;> rw [hc] at hb <;>
      simp only [SelectCache.dp_bank_sel] at hb <;>
      simp [write_raw_dp_register, select_dp_and_dp_bank, attemptWrite, ha', hb,
        hc, hk, SelectCache.set_dp_bank_sel, SelectCache.dp_bank_sel]
  · intro tr r bank addr v ha hb hk
    have ha' : ¬(addr ≠ 0 ∧ addr ≠ 4) := by rcases ha with h | h <;> simp [h]
    cases hc : r.cache <;> rw [hc] at hb <;>
      simp only [SelectCache.dp_bank_sel] at hb <;>
      by_cases hk2 : tr (r.tick + 1) <;>
      simp [write_raw_dp_register, select_dp_and_dp_bank, attemptWrite, ha', hb,
        hc, hk, hk2, SelectCache.set_dp_bank_sel, SelectCache.dp_bank_sel,
        SelectCache.selectWord, lastSelectWrite, lastSelect1Write,
        List.filterMap_append, List.getLast?_concat]
  · intro tr s s2 t k port areg v hdef hne hk
    have hne' : ¬(s = s2) := fun h => hne h.symm
    simp [write_raw_ap_register, select_ap_and_ap_bank, attemptWrite, hdef,
      hne', hk]
  · intro tr s s2 t k port areg v hdef hne hk
    have hne' : ¬(s = s2) := fun h => hne h.symm
    by_cases hk2 : tr (k + 1) <;>
      simp [write_raw_ap_register, select_ap_and_ap_bank, attemptWrite, hdef,
        hne', hk, hk2, lastSelectWrite, List.filterMap_append,
        List.getLast?_concat]
  · intro tr s t k port areg v hdef
    by_cases hk : tr k <;>
      simp [write_raw_ap_register, select_ap_and_ap_bank, attemptWrite, hdef,
        hk, lastSelectWrite, lastSelect1Write, List.filterMap_append]
  · intro tr s s1 s2 s12 t k base areg v hdef2 hdef12 hne hk
    have hne' : ¬(s = s2 ∧ s1 = s12) := fun h => hne (by rw [h.1, h.2])
    simp [write_raw_ap_register, select_ap_and_ap_bank, attemptWrite, hdef2,
      hdef12, hne', hk]
  · intro tr s s1 s2 s12 t k base areg v hdef2 hdef12 hne hk hk2
    have hne' : ¬(s = s2 ∧ s1 = s12) := fun h => hne (by rw [h.1, h.2])
    simp [write_raw_ap_register, select_ap_and_ap_bank, attemptWrite, hdef2,
      hdef12, hne', hk, hk2, lastSelectWrite, lastSelect1Write,
      List.filterMap_append, List.getLast?_concat]
  · intro tr s s1 s2 s12 t k base areg v hdef2 hdef12 hne hk hk2
    have hne' : ¬(s = s2 ∧ s1 = s12) := fun h => hne (by rw [h.1, h.2])
    by_cases hk3 : tr (k + 2) <;>
      simp [write_raw_ap_register, select_ap_and_ap_bank, attemptWrite, hdef2,
        hdef12, hne', hk, hk2, hk3, lastSelectWrite, lastSelect1Write,
        List.filterMap_append, List.getLast?_concat]
  · intro tr s t k base areg v
    simp [write_raw_ap_register, select_ap_and_ap_bank]
  · intro tr s s1 t k port areg v
    simp [write_raw_ap_register, select_ap_and_ap_bank]

/-- Witness for `c1_cache_written_before_wire`: each case instantiated at a
concrete input with its hypotheses discharged.  The DPv3 AP instance uses
`areg = 16` (so the attempted pair is `(⟨16⟩, ⟨0⟩)`) and, for the
SELECT-ok/SELECT1-fail case, a transport succeeding only at tick 0. -/
theorem c1_cache_written_before_wire_witness :
    ((write_raw_dp_register (fun _ => true) ⟨.DPv1 ⟨5⟩, [], 0⟩ (some 5) 8 1).1.cache
        = .DPv1 ⟨5⟩) ∧
    ((write_raw_dp_register (fun _ => false) ⟨.DPv3 ⟨0⟩ ⟨0⟩, [], 0⟩ (some 1) 0 2).2
        = false ∧
      (write_raw_dp_register (fun _ => false) ⟨.DPv3 ⟨0⟩ ⟨0⟩, [], 0⟩ (some 1) 0 2).1.cache
        = .DPv3 ⟨1⟩ ⟨0⟩ ∧
      (write_raw_dp_register (fun _ => false) ⟨.DPv3 ⟨0⟩ ⟨0⟩, [], 0⟩ (some 1) 0 2).1.trace
        = []) ∧
    (lastSelectWrite (write_raw_dp_register (fun _ => true) ⟨.DPv1 ⟨0⟩, [], 0⟩ (some 1) 4 7).1.trace
        = some 1) ∧
    ((write_raw_ap_register (fun _ => false) ⟨.DPv1 ⟨0⟩, [], 0⟩ (.V1 1) 0 3).2
        = .err ∧
      (write_raw_ap_register (fun _ => false) ⟨.DPv1 ⟨0⟩, [], 0⟩ (.V1 1) 0 3).1.cache
        = .DPv1 ⟨16777216⟩) ∧
    (lastSelectWrite (write_raw_ap_register (fun _ => true) ⟨.DPv1 ⟨0⟩, [], 0⟩ (.V1 1) 0 3).1.trace
        = some 16777216) ∧
    ((write_raw_ap_register (fun _ => true) ⟨.DPv1 ⟨144⟩, [], 0⟩ (.V1 0) 144 3).1.cache
        = .DPv1 ⟨144⟩) ∧
    ((write_raw_ap_register (fun _ => false) ⟨.DPv3 ⟨0⟩ ⟨0⟩, [], 0⟩ (.V2 none) 16 3).1.cache
        = .DPv3 ⟨16⟩ ⟨0⟩ ∧
      (write_raw_ap_register (fun _ => false) ⟨.DPv3 ⟨0⟩ ⟨0⟩, [], 0⟩ (.V2 none) 16 3).1.trace
        = []) ∧
    ((write_raw_ap_register (fun i => i == 0) ⟨.DPv3 ⟨0⟩ ⟨0⟩, [], 0⟩ (.V2 none) 16 3).2
        = .err ∧
      (write_raw_ap_register (fun i => i == 0) ⟨.DPv3 ⟨0⟩ ⟨0⟩, [], 0⟩ (.V2 none) 16 3).1.cache
        = .DPv3 ⟨16⟩ ⟨0⟩ ∧
      lastSelectWrite (write_raw_ap_register (fun i => i == 0) ⟨.DPv3 ⟨0⟩ ⟨0⟩, [], 0⟩ (.V2 none) 16 3).1.trace
        = some 16 ∧
      lastSelect1Write (write_raw_ap_register (fun i => i == 0) ⟨.DPv3 ⟨0⟩ ⟨0⟩, [], 0⟩ (.V2 none) 16 3).1.trace
        = none) ∧
    (lastSelect1Write (write_raw_ap_register (fun _ => true) ⟨.DPv3 ⟨0⟩ ⟨0⟩, [], 0⟩ (.V2 none) 16 3).1.trace
        = some 0) ∧
    (write_raw_ap_register (fun _ => true) ⟨.DPv1 ⟨0⟩, [], 0⟩ (.V2 none) 0 0
        = (⟨.DPv1 ⟨0⟩, [], 0⟩, .panicked)) ∧
    (write_raw_ap_register (fun _ => true) ⟨.DPv3 ⟨0⟩ ⟨0⟩, [], 0⟩ (.V1 0) 0 0
        = (⟨.DPv3 ⟨0⟩ ⟨0⟩, [], 0⟩, .panicked)) := by
  refine ⟨?_, ?_, ?_, ?_, ?_, ?_, ?_, ?_, ?_, ?_, ?_⟩
  · exact (c1_cache_written_before_wire.1 (fun _ => true)
      ⟨.DPv1 ⟨5⟩, [], 0⟩ (some 5) 8 1 (by decide)).1
  · exact c1_cache_written_before_wire.2.1 (fun _ => false)
      ⟨.DPv3 ⟨0⟩ ⟨0⟩, [], 0⟩ (some 1) 0 2 (by decide) (by decide) rfl
  · exact (c1_cache_written_before_wire.2.2.1 (fun _ => true)
      ⟨.DPv1 ⟨0⟩, [], 0⟩ (some 1) 4 7 (by decide) (by decide) rfl).2.1
  · exact ⟨(c1_cache_written_before_wire.2.2.2.1 (fun _ => false)
        ⟨0⟩ ⟨16777216⟩ [] 0 1 0 3 (by decide) (by decide) rfl).1,
      (c1_cache_written_before_wire.2.2.2.1 (fun _ => false)
        ⟨0⟩ ⟨16777216⟩ [] 0 1 0 3 (by decide) (by decide) rfl).2.1⟩
  · exact (c1_cache_written_before_wire.2.2.2.2.1 (fun _ => true)
      ⟨0⟩ ⟨16777216⟩ [] 0 1 0 3 (by decide) (by decide) rfl).2
  · exact (c1_cache_written_before_wire.2.2.2.2.2.1 (fun _ => true)
      ⟨144⟩ [] 0 0 144 3 (by decide)).1
  · exact ⟨(c1_cache_written_before_wire.2.2.2.2.2.2.1 (fun _ => false)
        ⟨0⟩ ⟨0⟩ ⟨16⟩ ⟨0⟩ [] 0 none 16 3 (by decide) (by decide) (by decide) rfl).2.1,
      (c1_cache_written_before_wire.2.2.2.2.2.2.1 (fun _ => false)
        ⟨0⟩ ⟨0⟩ ⟨16⟩ ⟨0⟩ [] 0 none 16 3 (by decide) (by decide) (by decide) rfl).2.2⟩
  · exact (c1_cache_written_before_wire.2.2.2.2.2.2.2.1 (fun i => i == 0)
      ⟨0⟩ ⟨0⟩ ⟨16⟩ ⟨0⟩ [] 0 none 16 3 (by decide) (by decide) (by decide)
      rfl rfl)
  · exact (c1_cache_written_before_wire.2.2.2.2.2.2.2.2.1 (fun _ => true)
      ⟨0⟩ ⟨0⟩ ⟨16⟩ ⟨0⟩ [] 0 none 16 3 (by decide) (by decide) (by decide)
      rfl rfl).2.2
  · exact c1_cache_written_before_wire.2.2.2.2.2.2.2.2.2.1 (fun _ => true)
      ⟨0⟩ [] 0 none 0 0
  · exact c1_cache_written_before_wire.2.2.2.2.2.2.2.2.2.2 (fun _ => true)
      ⟨0⟩ ⟨0⟩ [] 0 0 0 0

/-- C2: the explicit `close` path performs the full disconnect sequence
(stop the current DP, connect-and-stop every other known DP — with a
warning when the connect fails — and flush), but the `Drop` implementation
performs none of it: its body is commented out behind a TODO, so dropping
an Initialized interface invokes no hook at all.  Evaluated at a two-DP
configuration, for both a succeeding and a failing `debug_port_connect`. -/
theorem c2_drop_path_performs_no_disconnect :
    ArmCommunicationInterface.dropTrace .default
        [.default, .multidrop 1] (fun _ => true) = [] ∧
    ArmCommunicationInterface.close 5 .default
        [.default, .multidrop 1] (fun _ => true)
      = ([.stop .default, .connect (.multidrop 1), .stop (.multidrop 1),
          .rawFlush], 5) ∧
    ArmCommunicationInterface.close 5 .default
        [.default, .multidrop 1] (fun _ => false)
      = ([.stop .default, .connect (.multidrop 1),
          .warnFailedStop (.multidrop 1), .rawFlush], 5) ∧
    ArmCommunicationInterface.dropTrace .default
        [.default, .multidrop 1] (fun _ => true)
      ≠ (ArmCommunicationInterface.close 5 .default
          [.default, .multidrop 1] (fun _ => true)).1 := by
  decide

/-- C6, counterexample: three successful writes of DP register
`{bank: 0, addr: 0x4}` (a banked address, identical required bank 0) on a
fresh DP state issue *zero* SELECT writes on the wire, not exactly one: the
required bank already equals the cache's reset value, so the first access
writes no SELECT either. -/
theorem c6_select_count_counterexample :
    countSelectWrites (runDpWrites (fun _ => true) DapRun.fresh
      [(some 0, 4, 0xDEAD), (some 0, 4, 0xBEEF), (some 0, 4, 0xCAFE)]).1.trace
      ≠ 1 := by
  decide

theorem runDpWrites_same_bank (b : Nat) (vs : List Nat) (r : DapRun)
    (h : r.cache.dp_bank_sel = b) :
    (runDpWrites (fun _ => true) r (vs.map fun v => (some b, 4, v))).1.trace
      = r.trace ++ vs.map (fun v => WireEv.dpReg 4 v) := by
  induction vs generalizing r with
  | nil => simp [runDpWrites]
  | cons v vs ih =>
    have step :
        runDpWrites (fun _ => true) r ((v :: vs).map fun v => (some b, 4, v))
          = runDpWrites (fun _ => true)
              ⟨r.cache, r.trace ++ [WireEv.dpReg 4 v], r.tick + 1⟩
              (vs.map fun v => (some b, 4, v)) := by
      simp [runDpWrites, write_raw_dp_register, select_dp_and_dp_bank,
        attemptWrite, h]
    rw [step, ih ⟨r.cache, r.trace ++ [WireEv.dpReg 4 v], r.tick + 1⟩ h]
    simp

/-- C6, amended: for every successful run of banked DP register writes all
requiring the same bank `b < 16` on the same (already selected) DP, *at
most one* SELECT write reaches the wire: none at all when `b` equals the
initially cached `DP_BANK_SEL`, and exactly one — issued by the first
access — when it differs. -/
theorem c6_bank_cache_idempotent (c : SelectV1) (b : Nat) (vs : List Nat)
    (hb : b < 16) (hne : vs ≠ []) :
    countSelectWrites (runDpWrites (fun _ => true) ⟨.DPv1 c, [], 0⟩
        (vs.map fun v => (some b, 4, v))).1.trace
      = if b = c.dp_bank_sel then 0 else 1 := by
  cases vs with
  | nil => exact absurd rfl hne
  | cons v vs =>
    by_cases hc : b = c.dp_bank_sel
    · rw [runDpWrites_same_bank b (v :: vs) _ (by simpa [SelectCache.dp_bank_sel] using hc.symm)]
      simp [hc, countSelectWrites, List.countP_cons, WireEv.isSelect]
    · have step :
          runDpWrites (fun _ => true) ⟨.DPv1 c, [], 0⟩
              ((v :: vs).map fun v => (some b, 4, v))
            = runDpWrites (fun _ => true)
                ⟨.DPv1 (c.set_dp_bank_sel b),
                 [WireEv.dpSelectV1 (c.set_dp_bank_sel b).bits, WireEv.dpReg 4 v], 2⟩
                (vs.map fun v => (some b, 4, v)) := by
        simp [runDpWrites, write_raw_dp_register, select_dp_and_dp_bank,
          attemptWrite, SelectCache.dp_bank_sel, SelectCache.set_dp_bank_sel, hc]
      have hbank : (SelectCache.DPv1 (c.set_dp_bank_sel b)).dp_bank_sel = b := by
        simp [SelectCache.dp_bank_sel, SelectV1.dp_bank_sel, SelectV1.set_dp_bank_sel]
        omega
      rw [step, runDpWrites_same_bank b vs _ hbank]
      simp [hc, countSelectWrites, List.countP_cons, WireEv.isSelect]

/-- Witness for `c6_bank_cache_idempotent`: the spec's own scenario, three
writes of `{bank: 1, addr: 0x4}` from a fresh cache — exactly one SELECT
write. -/
theorem c6_bank_cache_idempotent_witness :
    (1 : Nat) < 16 ∧ ([0xDEAD, 0xBEEF, 0xCAFE] : List Nat) ≠ [] ∧
    countSelectWrites (runDpWrites (fun _ => true) ⟨.DPv1 ⟨0⟩, [], 0⟩
        ([0xDEAD, 0xBEEF, 0xCAFE].map fun v => (some 1, 4, v))).1.trace
      = if 1 = SelectV1.dp_bank_sel ⟨0⟩ then 0 else 1 :=
  ⟨by decide, by decide,
    c6_bank_cache_idempotent ⟨0⟩ 1 [0xDEAD, 0xBEEF, 0xCAFE] (by decide) (by decide)⟩

/-- C8: the probe slot is occupied in every reachable Initialized state,
and `reinitialize` never panics from such a state: it preserves the
Initialized phase (its result is again an `ArmCommIf` for the same current
DP) and on failure puts the probe back so the interface stays usable. -/
theorem c8_probe_slot_invariant :
    (∀ st, ReachableIf st → st.probe.isSome) ∧
    (∀ (st : ArmCommIf) (o : SetupOracle) (p : Nat), st.probe = some p →
      ∃ st' ok, reinitialize st o = some (st', ok) ∧ st'.probe.isSome ∧
        st'.current_dp = st.current_dp) := by
  constructor
  · intro st h
    induction h with
    | setup probe dp o st hok => simp [try_setup_ok_probe hok]
    | reinit st st' o ok _ hre _ =>
      unfold reinitialize at hre
      cases hp : st.probe with
      | none => simp [hp] at hre
      | some p =>
        simp only [hp, Option.map_some'] at hre
        cases hts : try_setup p st.current_dp o with
        | ok r =>
          simp [hts] at hre
          simp [← hre.1, try_setup_ok_probe hts]
        | error p' =>
          simp [hts] at hre
          simp [← hre.1]
  · intro st o p hp
    unfold reinitialize
    cases hts : try_setup p st.current_dp o with
    | ok r =>
      refine ⟨r, true, ?_, ?_, ?_⟩
      · simp [hp, hts]
      · simp [try_setup_ok_probe hts]
      · unfold try_setup at hts
        by_cases h1 : o.setupOk <;> by_cases h2 : o.selectOk <;>
          simp [h1, h2] at hts
        subst hts
        rfl
    | error p' =>
      exact ⟨{ st with probe := some p' }, false, by simp [hp, hts], by simp, rfl⟩

/-- Witness for `c8_probe_slot_invariant` at a concrete Initialized state
with the probe slot occupied and a failing setup oracle. -/
theorem c8_probe_slot_invariant_witness :
    (({ probe := some 3, current_dp := .default, dps := [.default] } : ArmCommIf).probe
        = some 3) ∧
    (∃ st' ok,
      reinitialize { probe := some 3, current_dp := .default, dps := [.default] }
          ⟨false, false⟩ = some (st', ok) ∧ st'.probe.isSome ∧
        st'.current_dp
          = ({ probe := some 3, current_dp := .default, dps := [.default] } : ArmCommIf).current_dp) :=
  ⟨rfl, c8_probe_slot_invariant.2
    { probe := some 3, current_dp := .default, dps := [.default] } ⟨false, false⟩ 3 rfl⟩

/-- C10: when the DPIDR handshake (or the never-overwritten placeholder of
`DpState::new`) leaves a DP's version as `Unsupported`, `access_ports`
reaches the `unreachable!` arm — a panic — and in particular does not
return an `ArmError`. -/
theorem c10_unsupported_version_panics :
    (∀ raw v1aps v2aps,
      access_ports (versionAfterSelectDp none (.Unsupported raw)) v1aps v2aps
        = .panicked) ∧
    (∀ v1aps v2aps,
      access_ports DpState.new.debug_port_version v1aps v2aps = .panicked) ∧
    (∀ raw v1aps v2aps,
      access_ports (.Unsupported raw) v1aps v2aps ≠ .armError) := by
  refine ⟨fun raw v1 v2 => rfl, fun v1 v2 => rfl, fun raw v1 v2 => ?_⟩
  simp [access_ports]

/-! ### Theorems: source_instructions.rs decomposition (C5, C4) -/

theorem SrcInstr.flattenBlocks_push (blocks : List SrcInstr.Block)
    (b : SrcInstr.Block) :
    SrcInstr.flattenBlocks (blocks ++ [b])
      = SrcInstr.flattenBlocks blocks ++ b.instructions := by
  simp [SrcInstr.flattenBlocks]

theorem SrcInstr.flattenBlocks_nil : SrcInstr.flattenBlocks [] = [] := by
  simp [SrcInstr.flattenBlocks]

theorem SrcInstr.materialize_cons (lang : DwLang) (row : LineRow)
    (rest : List LineRow) (pcmpl : Bool) (prev : Option LineRow)
    (he : row.end_sequence = false) :
    SrcInstr.materialize lang (row :: rest) pcmpl prev
      = SrcInstr.mkInstruction
            (pcmpl || (!pcmpl && is_prologue_complete row lang prev)) row prev ::
          SrcInstr.materialize lang rest
            (pcmpl || (!pcmpl && is_prologue_complete row lang prev)) (some row) := by
  simp [SrcInstr.materialize, he]

theorem SrcInstr.flatten_go (lang : DwLang) :
    ∀ (rows : List LineRow) (pcmpl : Bool) (prev : Option LineRow)
      (block : SrcInstr.Block) (blocks : List SrcInstr.Block),
      SrcInstr.flattenBlocks
          (SrcInstr.from_line_sequence_go lang rows pcmpl prev block blocks)
        = SrcInstr.flattenBlocks blocks ++ block.instructions ++
            SrcInstr.materialize lang rows pcmpl prev := by
  intro rows
  induction rows with
  | nil =>
    intro pcmpl prev block blocks
    by_cases h : block.instructions.isEmpty
    · have hbe : block.instructions = [] := List.isEmpty_iff.mp h
      simp [SrcInstr.from_line_sequence_go, h, hbe, SrcInstr.materialize]
    · simp [SrcInstr.from_line_sequence_go, h, SrcInstr.flattenBlocks_push,
        SrcInstr.materialize]
  | cons row rest ih =>
    intro pcmpl prev block blocks
    by_cases he : row.end_sequence = true
    · by_cases hf : (!pcmpl && is_prologue_complete row lang prev) = true
      · simp [SrcInstr.from_line_sequence_go, hf, he, SrcInstr.materialize,
          SrcInstr.flattenBlocks_push]
      · by_cases hb : block.instructions.isEmpty
        · have hbe : block.instructions = [] := List.isEmpty_iff.mp hb
          simp [SrcInstr.from_line_sequence_go, hf, he, hb, hbe,
            SrcInstr.materialize]
        · simp [SrcInstr.from_line_sequence_go, hf, he, hb,
            SrcInstr.materialize, SrcInstr.flattenBlocks_push]
    · have he' : row.end_sequence = false := by simpa using he
      by_cases hf : (!pcmpl && is_prologue_complete row lang prev) = true
      · have hgo : SrcInstr.from_line_sequence_go lang (row :: rest) pcmpl prev
            block blocks
            = SrcInstr.from_line_sequence_go lang rest true (some row)
                (SrcInstr.Block.add ⟨row.address, row.address, []⟩ true row prev)
                (blocks ++ [block]) := by
          simp [SrcInstr.from_line_sequence_go, hf, he']
        rw [hgo, ih, SrcInstr.materialize_cons lang row rest pcmpl prev he']
        simp [hf, SrcInstr.Block.add, SrcInstr.flattenBlocks_push,
          List.append_assoc]
      · have hf' : (!pcmpl && is_prologue_complete row lang prev) = false := by
          simpa using hf
        have hgo : SrcInstr.from_line_sequence_go lang (row :: rest) pcmpl prev
            block blocks
            = SrcInstr.from_line_sequence_go lang rest pcmpl (some row)
                (SrcInstr.Block.add block pcmpl row prev) blocks := by
          simp [SrcInstr.from_line_sequence_go, hf', he']
        rw [hgo, ih, SrcInstr.materialize_cons lang row rest pcmpl prev he']
        simp [hf', SrcInstr.Block.add, List.append_assoc]

theorem SrcInstr.materialize_true_types (lang : DwLang) :
    ∀ (rows : List LineRow) (prev : Option LineRow) (i : Nat),
      ((SrcInstr.materialize lang rows true prev).map
          (fun ins => ins.instruction_type))[i]?
        ≠ some SrcInstr.InstructionType.Prologue := by
  intro rows
  induction rows with
  | nil => intro prev i; simp [SrcInstr.materialize]
  | cons row rest ih =>
    intro prev i
    by_cases he : row.end_sequence = true
    · simp [SrcInstr.materialize, he]
    · have he' : row.end_sequence = false := by simpa using he
      rw [SrcInstr.materialize_cons lang row rest true prev he', List.map_cons]
      cases i with
      | zero =>
        by_cases hs : (row.epilogue_begin || row.is_stmt) = true <;>
          simp [SrcInstr.mkInstruction, hs]
      | succ j =>
        simpa using ih (some row) j

theorem SrcInstr.materialize_false_types (lang : DwLang)
    (hlang : lang.isCFamily = true) :
    ∀ (rows : List LineRow) (prev : Option LineRow),
      (∀ r ∈ rows, r.prologue_end = false ∧ r.end_sequence = false) →
      ∀ (i : Nat),
        (((SrcInstr.materialize lang rows false prev).map
              (fun ins => ins.instruction_type))[i]?
            = some SrcInstr.InstructionType.Prologue
          ↔ i < SrcInstr.specPrologueLen prev rows ∧
              i < (SrcInstr.materialize lang rows false prev).length) := by
  intro rows
  induction rows with
  | nil => intro prev _ i; simp [SrcInstr.materialize]
  | cons row rest ih =>
    intro prev hrows i
    have hrow := hrows row (List.mem_cons_self row rest)
    have hrest : ∀ r ∈ rest, r.prologue_end = false ∧ r.end_sequence = false :=
      fun r hr => hrows r (List.mem_cons_of_mem row hr)
    rw [SrcInstr.materialize_cons lang row rest false prev hrow.2]
    cases prev with
    | none =>
      have hpc : (false || (!false && is_prologue_complete row lang none)) = false := by
        simp [is_prologue_complete, hrow.1]
      rw [hpc]
      cases i with
      | zero =>
        simp [SrcInstr.mkInstruction, SrcInstr.specPrologueLen]
      | succ j =>
        have hind := ih (some row) hrest j
        simp only [SrcInstr.specPrologueLen, List.map_cons, List.getElem?_cons_succ,
          List.length_cons]
        rw [hind]
        omega
    | some p =>
      have hipc : is_prologue_complete row lang (some p) = SrcInstr.specFires p row := by
        simp [is_prologue_complete, hrow.1, hrow.2, hlang, SrcInstr.specFires,
          Bool.and_assoc]
      by_cases hsf : SrcInstr.specFires p row = true
      · have hpc : (false || (!false && is_prologue_complete row lang (some p))) = true := by
          simp [hipc, hsf]
        rw [hpc]
        have hlen : SrcInstr.specPrologueLen (some p) (row :: rest) = 0 := by
          simp [SrcInstr.specPrologueLen, hsf]
        rw [hlen]
        cases i with
        | zero =>
          by_cases hs : (row.epilogue_begin || row.is_stmt) = true <;>
            simp [SrcInstr.mkInstruction, hs]
        | succ j =>
          have hnp := SrcInstr.materialize_true_types lang rest (some row) j
          simp only [List.map_cons, List.getElem?_cons_succ]
          exact iff_of_false hnp (by omega)
      · have hpc : (false || (!false && is_prologue_complete row lang (some p))) = false := by
          simp [hipc, hsf]
        rw [hpc]
        have hlen : SrcInstr.specPrologueLen (some p) (row :: rest)
            = SrcInstr.specPrologueLen (some row) rest + 1 := by
          simp [SrcInstr.specPrologueLen, hsf]
        rw [hlen]
        cases i with
        | zero =>
          simp [SrcInstr.mkInstruction]
        | succ j =>
          have hind := ih (some row) hrest j
          simp only [List.map_cons, List.getElem?_cons_succ, List.length_cons]
          rw [hind]
          omega

/-- C5, counterexample: a C99 row stream with no `prologue_end` flags in
which *no* row's line differs from its predecessor's (both are absent),
yet the heuristic fires on the second row — because the code also fires
when the current row's line is absent (`row.line().is_none()`) — so the
second instruction is classified `HaltLocation`, not `Prologue` as the
claim requires. -/
theorem c5_prologue_heuristic_counterexample :
    (SrcInstr.flattenBlocks
        (SrcInstr.from_line_sequence .c99 0x1000 0x1008
          [⟨0x1000, 1, none, .column 1, true, false, false, false⟩,
           ⟨0x1004, 1, none, .column 1, true, false, false, false⟩,
           ⟨0x1008, 1, none, .column 1, false, false, false, true⟩]).blocks).map
        (fun i => i.instruction_type)
      = [.Prologue, .HaltLocation] ∧
    (⟨0x1004, 1, none, .column 1, true, false, false, false⟩ : LineRow).line
      = (⟨0x1000, 1, none, .column 1, true, false, false, false⟩ : LineRow).line := by
  constructor
  · rfl
  · rfl

/-- C5, amended: for a C99/C11/C17 unit whose rows carry neither
`prologue_end` nor `end_sequence` flags, the materialized instruction at
position `i` is classified `Prologue` exactly when `i` lies before the
first row for which a previous row exists, the row is a statement, it
shares its file index with the previous row, and its line differs from the
previous row's line *or is absent* (`specPrologueLen`); from that row on
all instructions are classified non-Prologue. -/
theorem c5_prologue_classification (lang : DwLang) (rows : List LineRow)
    (start stop : Nat) (hlang : lang.isCFamily = true)
    (hrows : ∀ r ∈ rows, r.prologue_end = false ∧ r.end_sequence = false) :
    ∀ (i : Nat)
      (h : i < (SrcInstr.flattenBlocks
        (SrcInstr.from_line_sequence lang start stop rows).blocks).length),
      (((SrcInstr.flattenBlocks
            (SrcInstr.from_line_sequence lang start stop rows).blocks).get
          ⟨i, h⟩).instruction_type = SrcInstr.InstructionType.Prologue
        ↔ i < SrcInstr.specPrologueLen none rows) := by
  have hfl : SrcInstr.flattenBlocks
      (SrcInstr.from_line_sequence lang start stop rows).blocks
      = SrcInstr.materialize lang rows false none := by
    have := SrcInstr.flatten_go lang rows false none ⟨start, start, []⟩ []
    simpa [SrcInstr.from_line_sequence, SrcInstr.flattenBlocks_nil] using this
  intro i h
  have hi : i < (SrcInstr.materialize lang rows false none).length := by
    rw [← hfl]; exact h
  have hget : (SrcInstr.flattenBlocks
        (SrcInstr.from_line_sequence lang start stop rows).blocks).get ⟨i, h⟩
      = (SrcInstr.materialize lang rows false none).get ⟨i, hi⟩ :=
    List.get_of_eq hfl ⟨i, h⟩
  rw [hget]
  have hmain := SrcInstr.materialize_false_types lang hlang rows none hrows i
  have hsome : ((SrcInstr.materialize lang rows false none).map
        (fun ins => ins.instruction_type))[i]?
      = some (((SrcInstr.materialize lang rows false none).get
          ⟨i, hi⟩).instruction_type) := by
    simp [List.getElem?_eq_getElem hi, List.get_eq_getElem]
  constructor
  · intro hp
    have hx : ((SrcInstr.materialize lang rows false none).map
        (fun ins => ins.instruction_type))[i]?
        = some SrcInstr.InstructionType.Prologue := by
      rw [hsome, hp]
    exact (hmain.mp hx).1
  · intro hp
    have hx := hmain.mpr ⟨hp, hi⟩
    rw [hsome] at hx
    exact Option.some.inj hx

/-- Witness for `c5_prologue_classification`: the spec's C99 scenario —
two statement rows on the same file with differing lines; the first
instruction is the whole prologue. -/
theorem c5_prologue_classification_witness :
    DwLang.isCFamily .c99 = true ∧
    (∀ r ∈ [(⟨0x1000, 1, some 10, .column 1, true, false, false, false⟩ : LineRow),
            ⟨0x1004, 1, some 11, .column 1, true, false, false, false⟩],
      r.prologue_end = false ∧ r.end_sequence = false) ∧
    (((SrcInstr.flattenBlocks
          (SrcInstr.from_line_sequence .c99 0x1000 0x1008
            [⟨0x1000, 1, some 10, .column 1, true, false, false, false⟩,
             ⟨0x1004, 1, some 11, .column 1, true, false, false, false⟩]).blocks).get
        ⟨0, by decide⟩).instruction_type = SrcInstr.InstructionType.Prologue
      ↔ 0 < SrcInstr.specPrologueLen none
          [⟨0x1000, 1, some 10, .column 1, true, false, false, false⟩,
           ⟨0x1004, 1, some 11, .column 1, true, false, false, false⟩]) :=
  ⟨rfl, by decide,
    c5_prologue_classification .c99
      [⟨0x1000, 1, some 10, .column 1, true, false, false, false⟩,
       ⟨0x1004, 1, some 11, .column 1, true, false, false, false⟩]
      0x1000 0x1008 rfl (by decide) 0 (by decide)⟩

/-! ### Theorems: instructions/* decomposition (C7, C3) -/

theorem Instr.flattenBlocks_cons (b : Instr.Block) (bs : List Instr.Block) :
    Instr.flattenBlocks (b :: bs) = b.instructions ++ Instr.flattenBlocks bs := by
  simp [Instr.flattenBlocks]

theorem Instr.build_blocks_go_flatten (fdie : Instr.FunctionLookup) :
    ∀ (fuel : Nat) (l : List Instr.Instruction) (prev : Option Instr.Block),
      l.length ≤ fuel →
      Instr.flattenBlocks (Instr.build_blocks_go fdie fuel prev l) = l := by
  intro fuel
  induction fuel with
  | zero =>
    intro l prev h
    cases l with
    | nil => simp [Instr.build_blocks_go, Instr.flattenBlocks]
    | cons i rest => simp at h
  | succ fuel ih =>
    intro l prev h
    cases l with
    | nil => simp [Instr.build_blocks_go, Instr.flattenBlocks]
    | cons i rest =>
      simp only [Instr.build_blocks_go, Instr.flattenBlocks_cons]
      have hlen : (Instr.Block.new fdie i.address
          (prev.bind fun prev_block =>
            if prev_block.steps_to = some i.address then
              (prev_block.instructions.getLast?).map (·.address)
            else none) (i :: rest)).2.length ≤ rest.length := by
        simpa [Instr.Block.new]
          using Instr.Block.newGo_cons_length fdie (fdie i.address) rest i _
      rw [ih _ _ (hlen.trans (Nat.le_of_succ_le_succ h))]
      have hf := Instr.Block.newGo_flatten fdie (fdie i.address)
        (i :: rest)
        { is_inlined := ((fdie i.address).map (·.is_inline)).getD false
          instructions := []
          stepped_from := prev.bind fun prev_block =>
            if prev_block.steps_to = some i.address then
              (prev_block.instructions.getLast?).map (·.address)
            else none
          steps_to := none }
      simpa [Instr.Block.new] using hf

theorem Instr.build_blocks_flatten (fdie : Instr.FunctionLookup)
    (prev : Option Instr.Block) (l : List Instr.Instruction) :
    Instr.flattenBlocks (Instr.build_blocks fdie prev l) = l :=
  Instr.build_blocks_go_flatten fdie l.length l prev (Nat.le_refl _)

theorem Instr.materialize_cons_row (lang : DwLang) (row : LineRow)
    (rest : List LineRow) (pcmpl : Bool) (prev : Option LineRow)
    (he : row.end_sequence = false) :
    Instr.materialize lang (row :: rest) pcmpl prev
      = Instr.Instruction.from_line_row
            (pcmpl || (!pcmpl && is_prologue_complete row lang prev)) row prev ::
          Instr.materialize lang rest
            (pcmpl || (!pcmpl && is_prologue_complete row lang prev)) (some row) := by
  simp [Instr.materialize, he]

theorem Instr.materialize_proj (lang : DwLang) :
    ∀ (rows : List LineRow) (pcmpl : Bool) (prev : Option LineRow),
      (Instr.materialize lang rows pcmpl prev).map
          (fun i => (i.address, i.file_index, i.column))
        = (rows.takeWhile fun r => !r.end_sequence).map
            (fun r => (r.address, r.file_index, r.column)) := by
  intro rows
  induction rows with
  | nil => intro pcmpl prev; simp [Instr.materialize]
  | cons row rest ih =>
    intro pcmpl prev
    by_cases he : row.end_sequence = true
    · simp [Instr.materialize, he, List.takeWhile_cons]
    · have he' : row.end_sequence = false := by simpa using he
      rw [Instr.materialize_cons_row lang row rest pcmpl prev he']
      simp [List.takeWhile_cons, he', Instr.Instruction.from_line_row, ih]

/-- C7, counterexample: the line-inheritance workaround changes the `line`
component.  For a row stream whose second row has an absent line (line 0 in
DWARF) but shares file and column with its predecessor, the materialized
instruction inherits line 5, so the multiset of
`(address, file_index, line, column)` tuples of the flattened blocks
differs from that of the raw rows minus `end_sequence` rows. -/
theorem c7_round_trip_counterexample :
    ((Instr.flattenBlocks (Instr.from_line_sequence (fun _ => none) (.other 0)
          0x1000 0x1008
          [⟨0x1000, 1, some 5, .column 2, true, false, false, false⟩,
           ⟨0x1004, 1, none, .column 2, true, false, false, false⟩,
           ⟨0x1008, 1, none, .column 2, false, false, false, true⟩]).blocks).map
        (fun i => (i.address, i.file_index, i.line, i.column))
        : Multiset (Nat × Nat × Option Nat × ColumnType))
      ≠ (([(⟨0x1000, 1, some 5, .column 2, true, false, false, false⟩ : LineRow),
           ⟨0x1004, 1, none, .column 2, true, false, false, false⟩,
           ⟨0x1008, 1, none, .column 2, false, false, false, true⟩].filter
            (fun r => !r.end_sequence)).map
          (fun r => (r.address, r.file_index, r.line, r.column))
          : Multiset (Nat × Nat × Option Nat × ColumnType)) := by
  decide

/-- C7, amended: decomposing a line sequence places every materialized
instruction in exactly one block with none dropped, duplicated or
reordered — flattening the blocks returns exactly the materialized
instruction list — and the materialized instructions agree with the raw
row stream (up to the first `end_sequence` row, which is consumed and not
materialized) on `(address, file_index, column)`; the `line` component may
differ only through the line-inheritance workaround for absent lines. -/
theorem c7_blocks_partition_instructions (fdie : Instr.FunctionLookup)
    (lang : DwLang) (start stop : Nat) (rows : List LineRow) :
    Instr.flattenBlocks (Instr.from_line_sequence fdie lang start stop rows).blocks
        = Instr.materialize lang rows false none ∧
    (Instr.materialize lang rows false none).map
        (fun i => (i.address, i.file_index, i.column))
      = (rows.takeWhile fun r => !r.end_sequence).map
          (fun r => (r.address, r.file_index, r.column)) := by
  constructor
  · simpa [Instr.from_line_sequence]
      using Instr.build_blocks_flatten fdie none
        (Instr.materialize lang rows false none)
  · exact Instr.materialize_proj lang rows false none

theorem Instr.build_blocks_go_nonempty (fdie : Instr.FunctionLookup) :
    ∀ (fuel : Nat) (l : List Instr.Instruction) (prev : Option Instr.Block),
      l.length ≤ fuel →
      ∀ b ∈ Instr.build_blocks_go fdie fuel prev l, b.instructions ≠ [] := by
  intro fuel
  induction fuel with
  | zero =>
    intro l prev h b hb
    cases l with
    | nil => simp [Instr.build_blocks_go] at hb
    | cons i rest => simp at h
  | succ fuel ih =>
    intro l prev h b hb
    cases l with
    | nil => simp [Instr.build_blocks_go] at hb
    | cons i rest =>
      simp only [Instr.build_blocks_go, List.mem_cons] at hb
      rcases hb with hb | hb
      · subst hb
        intro hempty
        simp only [Instr.Block.new] at hempty
        have hf := Instr.Block.newGo_flatten fdie (fdie i.address)
          (i :: rest)
          { is_inlined := ((fdie i.address).map (·.is_inline)).getD false
            instructions := []
            stepped_from := prev.bind fun prev_block =>
              if prev_block.steps_to = some i.address then
                (prev_block.instructions.getLast?).map (·.address)
              else none
            steps_to := none }
        have hlen := Instr.Block.newGo_cons_length fdie (fdie i.address) rest i
          { is_inlined := ((fdie i.address).map (·.is_inline)).getD false
            instructions := []
            stepped_from := prev.bind fun prev_block =>
              if prev_block.steps_to = some i.address then
                (prev_block.instructions.getLast?).map (·.address)
              else none
            steps_to := none }
        rw [hempty] at hf
        simp only [List.nil_append] at hf
        rw [hf] at hlen
        simp only [List.length_cons] at hlen
        omega
      · have hlen : (Instr.Block.new fdie i.address
            (prev.bind fun prev_block =>
              if prev_block.steps_to = some i.address then
                (prev_block.instructions.getLast?).map (·.address)
              else none) (i :: rest)).2.length ≤ rest.length := by
          simpa [Instr.Block.new]
            using Instr.Block.newGo_cons_length fdie (fdie i.address) rest i _
        exact ih _ _ (hlen.trans (Nat.le_of_succ_le_succ h)) b hb

/-- C3, counterexample: two rows at the same address (legal in DWARF: the
prologue row and the first statement row of an empty-bodied function can
share an address) produce two blocks both starting at 0x1000; the block
list is not *strictly* sorted by starting address and the two singleton
ranges coincide, so they overlap.  No sort is performed by
`build_blocks`. -/
theorem c3_block_sort_counterexample :
    ((Instr.from_line_sequence (fun _ => none) .c99 0x1000 0x1004
        [⟨0x1000, 1, some 1, .column 1, true, false, false, false⟩,
         ⟨0x1000, 1, some 2, .column 1, true, false, false, false⟩,
         ⟨0x1004, 1, none, .column 1, false, false, false, true⟩]).blocks.map
        (fun b => b.instructions.map fun i => i.address)) = [[0x1000], [0x1000]] ∧
    ¬ ((Instr.from_line_sequence (fun _ => none) .c99 0x1000 0x1004
        [⟨0x1000, 1, some 1, .column 1, true, false, false, false⟩,
         ⟨0x1000, 1, some 2, .column 1, true, false, false, false⟩,
         ⟨0x1004, 1, none, .column 1, false, false, false, true⟩]).blocks.map
        (fun b => (b.instructions.map fun i => i.address).headD 0)).Pairwise
      (· < ·) := by
  decide

/-- C3, amended: when the row addresses of the line sequence are
monotonically non-decreasing (as DWARF requires within one sequence), the
blocks produced by decomposition are non-empty, internally sorted by
address, and mutually ordered: every instruction of an earlier block has
an address less than or equal to every instruction of a later block — in
particular the block starting addresses are non-decreasing and
consecutive blocks can share only a boundary address.  Sortedness is not
strict and ranges may touch when consecutive rows share an address; no
sorting pass exists in the code. -/
theorem c3_blocks_address_ordered (fdie : Instr.FunctionLookup)
    (lang : DwLang) (start stop : Nat) (rows : List LineRow)
    (hmono : (rows.map fun r => r.address).Pairwise (· ≤ ·)) :
    (∀ b ∈ (Instr.from_line_sequence fdie lang start stop rows).blocks,
        b.instructions ≠ [] ∧
        (b.instructions.map fun i => i.address).Pairwise (· ≤ ·)) ∧
    (Instr.from_line_sequence fdie lang start stop rows).blocks.Pairwise
      (fun b1 b2 => ∀ i1 ∈ b1.instructions, ∀ i2 ∈ b2.instructions,
        i1.address ≤ i2.address) := by
  have hfl : Instr.flattenBlocks
      (Instr.from_line_sequence fdie lang start stop rows).blocks
      = Instr.materialize lang rows false none := by
    simpa [Instr.from_line_sequence]
      using Instr.build_blocks_flatten fdie none
        (Instr.materialize lang rows false none)
  have haddr : (Instr.materialize lang rows false none).map (fun i => i.address)
      = (rows.takeWhile fun r => !r.end_sequence).map (fun r => r.address) := by
    have hproj := Instr.materialize_proj lang rows false none
    have := congrArg (List.map (fun t : Nat × Nat × ColumnType => t.1)) hproj
    simpa [List.map_map, Function.comp] using this
  have hsub : ((rows.takeWhile fun r => !r.end_sequence).map fun r => r.address).Sublist
      (rows.map fun r => r.address) :=
    List.Sublist.map (fun r : LineRow => r.address)
      (List.takeWhile_sublist (fun r : LineRow => !r.end_sequence))
  have hpw : ((Instr.materialize lang rows false none).map
      (fun i => i.address)).Pairwise (· ≤ ·) := by
    rw [haddr]
    exact hmono.sublist hsub
  have hpwflat : ((Instr.flattenBlocks
      (Instr.from_line_sequence fdie lang start stop rows).blocks).map
        (fun i => i.address)).Pairwise (· ≤ ·) := by
    rw [hfl]
    exact hpw
  have hne : ∀ b ∈ (Instr.from_line_sequence fdie lang start stop rows).blocks,
      b.instructions ≠ [] := by
    intro b hb
    have hb' : b ∈ Instr.build_blocks_go fdie
        (Instr.materialize lang rows false none).length none
        (Instr.materialize lang rows false none) := by
      simpa [Instr.from_line_sequence, Instr.build_blocks] using hb
    exact Instr.build_blocks_go_nonempty fdie
      (Instr.materialize lang rows false none).length
      (Instr.materialize lang rows false none) none (Nat.le_refl _) b hb'
  rw [show Instr.flattenBlocks
      (Instr.from_line_sequence fdie lang start stop rows).blocks
      = ((Instr.from_line_sequence fdie lang start stop rows).blocks.map
          Instr.Block.instructions).flatten from rfl] at hpwflat
  rw [List.map_flatten] at hpwflat
  rw [List.pairwise_flatten] at hpwflat
  obtain ⟨hinner, houter⟩ := hpwflat
  constructor
  · intro b hb
    refine ⟨hne b hb, ?_⟩
    exact hinner (b.instructions.map fun i => i.address)
      (by
        refine List.mem_map.mpr ?_
        exact ⟨b.instructions, List.mem_map.mpr ⟨b, hb, rfl⟩, rfl⟩)
  · have houter2 := (List.pairwise_map.mp (List.pairwise_map.mp houter))
    refine houter2.imp ?_
    intro b1 b2 hp i1 h1 i2 h2
    exact hp (i1.address) (List.mem_map_of_mem _ h1)
      (i2.address) (List.mem_map_of_mem _ h2)

/-! ### Theorems: breakpoint resolution for_address (C4) -/

theorem pairwise_le_head :
    ∀ {l : List Nat}, l.Pairwise (· ≤ ·) → ∀ {h0 x : Nat},
      l.head? = some h0 → x ∈ l → h0 ≤ x := by
  intro l
  cases l with
  | nil => intro _ h0 x hh; simp at hh
  | cons a tl =>
    intro hp h0 x hh hx
    simp only [List.head?_cons, Option.some.injEq] at hh
    subst hh
    rcases List.mem_cons.mp hx with h | h
    · subst h; exact Nat.le_refl _
    · exact (List.pairwise_cons.mp hp).1 x h

theorem pairwise_le_last :
    ∀ {l : List Nat}, l.Pairwise (· ≤ ·) → ∀ {il x : Nat},
      l.getLast? = some il → x ∈ l → x ≤ il := by
  intro l
  induction l with
  | nil => intro _ il x hl; simp at hl
  | cons a tl ih =>
    intro hp il x hl hx
    cases tl with
    | nil =>
      simp only [List.getLast?_singleton, Option.some.injEq] at hl
      rcases List.mem_cons.mp hx with h | h
      · subst h; subst hl; exact Nat.le_refl _
      · simp at h
    | cons b tl2 =>
      rw [List.getLast?_cons_cons] at hl
      rcases List.mem_cons.mp hx with h | h
      · subst h
        have hmem : il ∈ b :: tl2 := List.mem_of_getLast?_eq_some hl
        exact (List.pairwise_cons.mp hp).1 il hmem
      · exact ih (List.pairwise_cons.mp hp).2 hl h

theorem find?_rel_of_pairwise {α : Type} {R : α → α → Prop} {p : α → Bool} :
    ∀ {l : List α}, l.Pairwise R → ∀ {J I : α},
      l.find? p = some J → I ∈ l → p I = true → (R J I ∨ J = I) := by
  intro l
  induction l with
  | nil => intro _ J I hf; simp at hf
  | cons a tl ih =>
    intro hp J I hf hI hpI
    by_cases ha : p a = true
    · rw [List.find?_cons_of_pos _ ha] at hf
      rcases List.mem_cons.mp hI with h | h
      · right; subst h; exact (Option.some.inj hf).symm ▸ rfl
      · left
        have := (List.pairwise_cons.mp hp).1 I h
        rw [← Option.some.inj hf]
        exact this
    · rw [List.find?_cons_of_neg _ (by simpa using ha)] at hf
      rcases List.mem_cons.mp hI with h | h
      · subst h; exact absurd hpI ha
      · exact ih (List.pairwise_cons.mp hp).2 hf h hpI

theorem findSome?_rel_of_pairwise {α β : Type} {R : β → β → Prop}
    {f : β → Option α} :
    ∀ {l : List β}, l.Pairwise R → ∀ {J : α} {b : β},
      l.findSome? f = some J → b ∈ l → f b ≠ none →
      ∃ b' ∈ l, f b' = some J ∧ (R b' b ∨ b' = b) := by
  intro l
  induction l with
  | nil => intro _ J b hf; simp at hf
  | cons x xs ih =>
    intro hp J b hf hb hfb
    rw [List.findSome?_cons] at hf
    cases hx : f x with
    | some y =>
      rw [hx] at hf
      refine ⟨x, List.mem_cons_self x xs, by rw [hx]; exact hf, ?_⟩
      rcases List.mem_cons.mp hb with h | h
      · right; exact h.symm
      · left; exact (List.pairwise_cons.mp hp).1 b h
    | none =>
      rw [hx] at hf
      rcases List.mem_cons.mp hb with h | h
      · subst h; exact absurd hx hfb
      · obtain ⟨b', hb', hfb', hrel⟩ := ih (List.pairwise_cons.mp hp).2 hf h hfb
        exact ⟨b', List.mem_cons_of_mem x hb', hfb', hrel⟩

theorem SrcInstr.mem_flattenBlocks {I : SrcInstr.Instruction}
    {blocks : List SrcInstr.Block} :
    I ∈ SrcInstr.flattenBlocks blocks ↔ ∃ b ∈ blocks, I ∈ b.instructions := by
  simp [SrcInstr.flattenBlocks, List.mem_flatten]

theorem SrcInstr.materialize_addr (lang : DwLang) :
    ∀ (rows : List LineRow) (pcmpl : Bool) (prev : Option LineRow),
      (SrcInstr.materialize lang rows pcmpl prev).map (fun i => i.address)
        = (rows.takeWhile fun r => !r.end_sequence).map (fun r => r.address) := by
  intro rows
  induction rows with
  | nil => intro pcmpl prev; simp [SrcInstr.materialize]
  | cons row rest ih =>
    intro pcmpl prev
    by_cases he : row.end_sequence = true
    · simp [SrcInstr.materialize, he, List.takeWhile_cons]
    · have he' : row.end_sequence = false := by simpa using he
      rw [SrcInstr.materialize_cons lang row rest pcmpl prev he']
      simp [List.takeWhile_cons, he', SrcInstr.mkInstruction, ih]

theorem SrcInstr.blocks_ordered (lang : DwLang) (s stop : Nat)
    (rows : List LineRow)
    (hmono : (rows.map fun r => r.address).Pairwise (· ≤ ·)) :
    (∀ b ∈ (SrcInstr.from_line_sequence lang s stop rows).blocks,
        (b.instructions.map fun i => i.address).Pairwise (· ≤ ·)) ∧
    (SrcInstr.from_line_sequence lang s stop rows).blocks.Pairwise
      (fun b1 b2 => ∀ i1 ∈ b1.instructions, ∀ i2 ∈ b2.instructions,
        i1.address ≤ i2.address) := by
  have hfl : SrcInstr.flattenBlocks
      (SrcInstr.from_line_sequence lang s stop rows).blocks
      = SrcInstr.materialize lang rows false none := by
    have := SrcInstr.flatten_go lang rows false none ⟨s, s, []⟩ []
    simpa [SrcInstr.from_line_sequence, SrcInstr.flattenBlocks_nil] using this
  have hpwflat : ((SrcInstr.flattenBlocks
      (SrcInstr.from_line_sequence lang s stop rows).blocks).map
        (fun i => i.address)).Pairwise (· ≤ ·) := by
    rw [hfl, SrcInstr.materialize_addr]
    exact hmono.sublist
      (List.Sublist.map (fun r : LineRow => r.address)
        (List.takeWhile_sublist (fun r : LineRow => !r.end_sequence)))
  rw [show SrcInstr.flattenBlocks
      (SrcInstr.from_line_sequence lang s stop rows).blocks
      = ((SrcInstr.from_line_sequence lang s stop rows).blocks.map
          SrcInstr.Block.instructions).flatten from rfl] at hpwflat
  rw [List.map_flatten, List.pairwise_flatten] at hpwflat
  obtain ⟨hinner, houter⟩ := hpwflat
  constructor
  · intro b hb
    exact hinner (b.instructions.map fun i => i.address)
      (by
        refine List.mem_map.mpr ?_
        exact ⟨b.instructions, List.mem_map.mpr ⟨b, hb, rfl⟩, rfl⟩)
  · have houter2 := (List.pairwise_map.mp (List.pairwise_map.mp houter))
    refine houter2.imp ?_
    intro b1 b2 hp i1 h1 i2 h2
    exact hp (i1.address) (List.mem_map_of_mem _ h1)
      (i2.address) (List.mem_map_of_mem _ h2)

theorem SrcInstr.go_block_bounds (lang : DwLang) :
    ∀ (rows : List LineRow) (pcmpl : Bool) (prev : Option LineRow)
      (block : SrcInstr.Block) (blocks : List SrcInstr.Block),
      (block.instructions = [] →
        ∀ r ∈ rows, r.end_sequence = false → block.lo ≤ r.address) →
      SrcInstr.BlockBounds block →
      (∀ b ∈ blocks, SrcInstr.BlockBounds b) →
      ∀ b ∈ SrcInstr.from_line_sequence_go lang rows pcmpl prev block blocks,
        SrcInstr.BlockBounds b := by
  intro rows
  induction rows with
  | nil =>
    intro pcmpl prev block blocks _ hbb hblocks b hb
    by_cases h : block.instructions.isEmpty <;>
      simp only [SrcInstr.from_line_sequence_go, h] at hb
    · simp at hb
      exact hblocks b hb
    · simp at hb
      rcases hb with hb | hb
      · exact hblocks b hb
      · subst hb; exact hbb
  | cons row rest ih =>
    intro pcmpl prev block blocks hemp hbb hblocks b hb
    by_cases he : row.end_sequence = true
    · by_cases hf : (!pcmpl && is_prologue_complete row lang prev) = true
      · simp only [SrcInstr.from_line_sequence_go, hf, he] at hb
        simp at hb
        rcases hb with hb | hb
        · exact hblocks b hb
        · subst hb; exact hbb
      · simp only [SrcInstr.from_line_sequence_go, hf, he] at hb
        by_cases hbe : block.instructions.isEmpty <;> simp [hbe] at hb
        · exact hblocks b hb
        · rcases hb with hb | hb
          · exact hblocks b hb
          · subst hb; exact hbb
    · have he' : row.end_sequence = false := by simpa using he
      by_cases hf : (!pcmpl && is_prologue_complete row lang prev) = true
      · have hgo : SrcInstr.from_line_sequence_go lang (row :: rest) pcmpl prev
            block blocks
            = SrcInstr.from_line_sequence_go lang rest true (some row)
                (SrcInstr.Block.add ⟨row.address, row.address, []⟩ true row prev)
                (blocks ++ [block]) := by
          simp [SrcInstr.from_line_sequence_go, hf, he']
        rw [hgo] at hb
        refine ih true (some row) _ _ ?_ ?_ ?_ b hb
        · intro habs
          simp [SrcInstr.Block.add] at habs
        · constructor
          · intro i0 h0
            simp only [SrcInstr.Block.add, List.nil_append, List.head?_cons,
              Option.mem_def, Option.some.injEq] at h0
            subst h0
            simp [SrcInstr.Block.add, SrcInstr.mkInstruction]
          · intro il hl
            simp only [SrcInstr.Block.add, List.nil_append,
              List.getLast?_singleton, Option.mem_def, Option.some.injEq] at hl
            subst hl
            simp [SrcInstr.Block.add, SrcInstr.mkInstruction]
        · intro b2 hb2
          rcases List.mem_append.mp hb2 with h2 | h2
          · exact hblocks b2 h2
          · simp at h2; subst h2; exact hbb
      · have hf' : (!pcmpl && is_prologue_complete row lang prev) = false := by
          simpa using hf
        have hgo : SrcInstr.from_line_sequence_go lang (row :: rest) pcmpl prev
            block blocks
            = SrcInstr.from_line_sequence_go lang rest pcmpl (some row)
                (SrcInstr.Block.add block pcmpl row prev) blocks := by
          simp [SrcInstr.from_line_sequence_go, hf', he']
        rw [hgo] at hb
        refine ih pcmpl (some row) _ _ ?_ ?_ hblocks b hb
        · intro habs
          simp [SrcInstr.Block.add] at habs
        · constructor
          · intro i0 h0
            rcases hbe : block.instructions with _ | ⟨x, xs⟩
            · simp only [SrcInstr.Block.add, hbe, List.nil_append,
                List.head?_cons, Option.mem_def, Option.some.injEq] at h0
              subst h0
              have := hemp hbe row (List.mem_cons_self row rest) he'
              simpa [SrcInstr.Block.add, SrcInstr.mkInstruction] using this
            · simp only [SrcInstr.Block.add, hbe, List.cons_append,
                List.head?_cons, Option.mem_def, Option.some.injEq] at h0
              subst h0
              have := hbb.1 x
              simp only [hbe, List.head?_cons, Option.mem_def] at this
              simpa [SrcInstr.Block.add] using this trivial
          · intro il hl
            simp only [SrcInstr.Block.add, List.getLast?_concat,
              Option.mem_def, Option.some.injEq] at hl
            subst hl
            simp [SrcInstr.Block.add, SrcInstr.mkInstruction]

theorem SrcInstr.sequence_block_bounds (lang : DwLang) (s stop : Nat)
    (rows : List LineRow)
    (hlo : ∀ r ∈ rows, r.end_sequence = false → s ≤ r.address) :
    ∀ b ∈ (SrcInstr.from_line_sequence lang s stop rows).blocks,
      SrcInstr.BlockBounds b := by
  intro b hb
  refine SrcInstr.go_block_bounds lang rows false none ⟨s, s, []⟩ [] ?_ ?_ ?_ b hb
  · intro _ r hr hre
    exact hlo r hr hre
  · exact ⟨fun i0 h0 => by simp at h0, fun il hl => by simp at hl⟩
  · intro b2 hb2
    simp at hb2

/-- C4, counterexample: `match_address` searches only blocks whose
included address range contains the program counter.  For a C99 sequence
whose prologue block is the single instruction at 0x1000 and whose body
block starts at 0x1004, `for_address(0x1000)` returns `WarnAndContinue`
even though a `HaltLocation` instruction at address 0x1004 ≥ 0x1000 exists
in the sequence — the claim's block search would find it. -/
theorem c4_for_address_counterexample :
    SrcInstr.for_address .c99 (fun _ => some (some 1, some 2))
        [(0x1000, 0x1008,
          [⟨0x1000, 1, some 1, .column 1, true, false, false, false⟩,
           ⟨0x1004, 1, some 2, .column 1, true, false, false, false⟩,
           ⟨0x1008, 1, none, .column 1, false, false, false, true⟩])] 0x1000
      = .error .warnAndContinue ∧
    (∃ ins ∈ SrcInstr.flattenBlocks
        (SrcInstr.from_line_sequence .c99 0x1000 0x1008
          [⟨0x1000, 1, some 1, .column 1, true, false, false, false⟩,
           ⟨0x1004, 1, some 2, .column 1, true, false, false, false⟩,
           ⟨0x1008, 1, none, .column 1, false, false, false, true⟩]).blocks,
      ins.instruction_type = SrcInstr.InstructionType.HaltLocation ∧
        0x1000 ≤ ins.address) :=
  ⟨rfl, by decide⟩

/-- C4, amended: `for_address(pc)` searches only those blocks of the
covering sequence whose included address range contains `pc`, returning
the first `HaltLocation` instruction with address ≥ `pc` found there.  In
particular (given monotone in-range row addresses and resolvable file
information) for every `HaltLocation` instruction at address `A`,
`for_address(A)` succeeds and the returned breakpoint's address equals
`A`; and whenever no block containing `pc` yields such an instruction,
the continuable `WarnAndContinue` error is returned. -/
theorem c4_for_address_haltpoint (lang : DwLang) (fdir : FileDirLookup)
    (s e A : Nat) (rows : List LineRow)
    (hmono : (rows.map fun r => r.address).Pairwise (· ≤ ·))
    (hrange : ∀ r ∈ rows, r.end_sequence = false →
      s ≤ r.address ∧ r.address < e)
    (hfdir : ∀ ins ∈ SrcInstr.flattenBlocks
        (SrcInstr.from_line_sequence lang s e rows).blocks,
      (fdir ins.file_index).isSome = true) :
    ((∃ ins ∈ SrcInstr.flattenBlocks
        (SrcInstr.from_line_sequence lang s e rows).blocks,
        ins.instruction_type = SrcInstr.InstructionType.HaltLocation ∧
          ins.address = A) →
      ∃ bp, SrcInstr.for_address lang fdir [(s, e, rows)] A = .ok bp ∧
        bp.address = A) ∧
    ((SrcInstr.match_address (SrcInstr.from_line_sequence lang s e rows) A fdir
        = none ∧ s ≤ A ∧ A < e) →
      SrcInstr.for_address lang fdir [(s, e, rows)] A
        = .error .warnAndContinue) := by
  have hfl : SrcInstr.flattenBlocks
      (SrcInstr.from_line_sequence lang s e rows).blocks
      = SrcInstr.materialize lang rows false none := by
    have := SrcInstr.flatten_go lang rows false none ⟨s, s, []⟩ []
    simpa [SrcInstr.from_line_sequence, SrcInstr.flattenBlocks_nil] using this
  constructor
  · rintro ⟨I, hIflat, hIt, hIA⟩
    obtain ⟨bI, hbI, hIin⟩ := SrcInstr.mem_flattenBlocks.mp hIflat
    obtain ⟨hinner, houter⟩ := SrcInstr.blocks_ordered lang s e rows hmono
    have hbounds := SrcInstr.sequence_block_bounds lang s e rows
      (fun r hr hre => (hrange r hr hre).1)
    have hArange : s ≤ A ∧ A < e := by
      have hAflat : I.address ∈ (SrcInstr.flattenBlocks
          (SrcInstr.from_line_sequence lang s e rows).blocks).map
            (fun i => i.address) := List.mem_map_of_mem _ hIflat
      rw [hfl, SrcInstr.materialize_addr] at hAflat
      obtain ⟨r, hrtw, hraddr⟩ := List.mem_map.mp hAflat
      have hrrows : r ∈ rows :=
        List.takeWhile_subset (fun r : LineRow => !r.end_sequence) hrtw
      have hrne : r.end_sequence = false := by
        have hall := List.all_takeWhile (l := rows)
          (p := fun r : LineRow => !r.end_sequence)
        have := List.all_eq_true.mp hall r hrtw
        simpa using this
      have := hrange r hrrows hrne
      rw [hraddr, hIA] at this
      exact this
    have hpI : (I.instruction_type == SrcInstr.InstructionType.HaltLocation &&
        decide (A ≤ I.address)) = true := by
      simp [hIt, hIA]
    have hbne : bI.instructions ≠ [] := List.ne_nil_of_mem hIin
    obtain ⟨i0, hh0⟩ : ∃ i0, bI.instructions.head? = some i0 := by
      cases hh : bI.instructions.head? with
      | none => exact absurd (List.head?_eq_none_iff.mp hh) hbne
      | some i0 => exact ⟨i0, rfl⟩
    obtain ⟨il, hhl⟩ : ∃ il, bI.instructions.getLast? = some il := by
      cases hh : bI.instructions.getLast? with
      | none => exact absurd (List.getLast?_eq_none_iff.mp hh) hbne
      | some il => exact ⟨il, rfl⟩
    have hpwb := hinner bI hbI
    have hlo : bI.lo ≤ A := by
      have h1 := (hbounds bI hbI).1 i0 (by rw [hh0]; rfl)
      have h2 : i0.address ≤ I.address :=
        pairwise_le_head hpwb
          (by rw [List.head?_map, hh0]; rfl)
          (List.mem_map_of_mem _ hIin)
      omega
    have hhi : A ≤ bI.hi := by
      have h1 := (hbounds bI hbI).2 il (by rw [hhl]; rfl)
      have h2 : I.address ≤ il.address :=
        pairwise_le_last hpwb
          (by rw [List.getLast?_map, hhl]; rfl)
          (List.mem_map_of_mem _ hIin)
      omega
    have hbmatch : bI.match_address A ≠ none := by
      unfold SrcInstr.Block.match_address
      rw [if_pos ⟨hlo, hhi⟩]
      intro hnone
      have := List.find?_eq_none.mp hnone I hIin
      exact this hpI
    cases hfs : (SrcInstr.from_line_sequence lang s e rows).blocks.findSome?
        (fun block => block.match_address A) with
    | none =>
      exact absurd (List.findSome?_eq_none_iff.mp hfs bI hbI) hbmatch
    | some J =>
      obtain ⟨b', hb', hfb', hrel⟩ :=
        findSome?_rel_of_pairwise houter hfs hbI hbmatch
      have hfind' : b'.instructions.find?
          (fun location =>
            location.instruction_type == SrcInstr.InstructionType.HaltLocation &&
            decide (A ≤ location.address)) = some J ∧
          (b'.lo ≤ A ∧ A ≤ b'.hi) := by
        unfold SrcInstr.Block.match_address at hfb'
        by_cases hc : b'.lo ≤ A ∧ A ≤ b'.hi
        · rw [if_pos hc] at hfb'
          exact ⟨hfb', hc⟩
        · rw [if_neg hc] at hfb'
          exact absurd hfb' (by simp)
      have hJmem : J ∈ b'.instructions :=
        List.mem_of_find?_eq_some hfind'.1
      have hJp := List.find?_some hfind'.1
      simp only [Bool.and_eq_true, beq_iff_eq, decide_eq_true_eq] at hJp
      have hJge : A ≤ J.address := hJp.2
      have hJle : J.address ≤ A := by
        rcases hrel with hrel | hrel
        · have h9 := hrel J hJmem I hIin
          rw [hIA] at h9
          exact h9
        · subst hrel
          have hpwI : List.Pairwise
              (fun x y : SrcInstr.Instruction => x.address ≤ y.address)
              b'.instructions :=
            List.pairwise_map.mp hpwb
          rcases find?_rel_of_pairwise hpwI hfind'.1 hIin hpI with h | h
          · rw [hIA] at h
            exact h
          · rw [h, hIA]
      have hJA : J.address = A := Nat.le_antisymm hJle hJge
      have hJflat : J ∈ SrcInstr.flattenBlocks
          (SrcInstr.from_line_sequence lang s e rows).blocks :=
        SrcInstr.mem_flattenBlocks.mpr ⟨b', hb', hJmem⟩
      obtain ⟨fd, hfd⟩ := Option.isSome_iff_exists.mp (hfdir J hJflat)
      have hstart : (SrcInstr.from_line_sequence lang s e rows).start = s := rfl
      have hstop : (SrcInstr.from_line_sequence lang s e rows).stop = e := rfl
      have hseqmatch : SrcInstr.match_address
          (SrcInstr.from_line_sequence lang s e rows) A fdir
          = some { address := J.address
                   source_location :=
                    { line := J.line, column := some J.column,
                      file := fd.1, directory := fd.2 } } := by
        unfold SrcInstr.match_address
        rw [hstart, hstop, if_pos hArange, hfs]
        simp [hfd]
      have hlen0 : ¬ (SrcInstr.from_line_sequence lang s e rows).blocks.length = 0 := by
        intro h0
        rw [List.length_eq_zero] at h0
        rw [h0] at hbI
        simp at hbI
      refine ⟨{ address := J.address
                source_location :=
                  { line := J.line, column := some J.column,
                    file := fd.1, directory := fd.2 } }, ?_, hJA⟩
      unfold SrcInstr.for_address
      rw [List.find?_cons_of_pos _ (by simp [hArange.1, hArange.2])]
      show (if (SrcInstr.from_line_sequence lang s e rows).blocks.length = 0
          then Except.error DebugError.warnAndContinue
          else match SrcInstr.match_address
              (SrcInstr.from_line_sequence lang s e rows) A fdir with
            | some verified_breakpoint => Except.ok verified_breakpoint
            | none => Except.error DebugError.warnAndContinue) = _
      rw [if_neg hlen0, hseqmatch]
  · rintro ⟨hnone, hsA, hAe⟩
    unfold SrcInstr.for_address
    rw [List.find?_cons_of_pos _ (by simp [hsA, hAe])]
    show (if (SrcInstr.from_line_sequence lang s e rows).blocks.length = 0
        then Except.error DebugError.warnAndContinue
        else match SrcInstr.match_address
            (SrcInstr.from_line_sequence lang s e rows) A fdir with
          | some verified_breakpoint => Except.ok verified_breakpoint
          | none => Except.error DebugError.warnAndContinue)
      = Except.error DebugError.warnAndContinue
    by_cases hlen0 : (SrcInstr.from_line_sequence lang s e rows).blocks.length = 0
    · rw [if_pos hlen0]
    · rw [if_neg hlen0, hnone]

/-- Witness for `c4_for_address_haltpoint`: the prologue/body sequence of
the counterexample, queried at the body halt point 0x1004 itself. -/
theorem c4_for_address_haltpoint_witness :
    (([(⟨0x1000, 1, some 1, .column 1, true, false, false, false⟩ : LineRow),
       ⟨0x1004, 1, some 2, .column 1, true, false, false, false⟩,
       ⟨0x1008, 1, none, .column 1, false, false, false, true⟩].map
        fun r => r.address).Pairwise (· ≤ ·)) ∧
    ((∃ ins ∈ SrcInstr.flattenBlocks
        (SrcInstr.from_line_sequence .c99 0x1000 0x1008
          [⟨0x1000, 1, some 1, .column 1, true, false, false, false⟩,
           ⟨0x1004, 1, some 2, .column 1, true, false, false, false⟩,
           ⟨0x1008, 1, none, .column 1, false, false, false, true⟩]).blocks,
        ins.instruction_type = SrcInstr.InstructionType.HaltLocation ∧
          ins.address = 0x1004) →
      ∃ bp, SrcInstr.for_address .c99 (fun _ => some (some 1, some 2))
          [(0x1000, 0x1008,
            [⟨0x1000, 1, some 1, .column 1, true, false, false, false⟩,
             ⟨0x1004, 1, some 2, .column 1, true, false, false, false⟩,
             ⟨0x1008, 1, none, .column 1, false, false, false, true⟩])] 0x1004
          = .ok bp ∧ bp.address = 0x1004) :=
  ⟨by decide,
    (c4_for_address_haltpoint .c99 (fun _ => some (some 1, some 2))
      0x1000 0x1008 0x1004
      [⟨0x1000, 1, some 1, .column 1, true, false, false, false⟩,
       ⟨0x1004, 1, some 2, .column 1, true, false, false, false⟩,
       ⟨0x1008, 1, none, .column 1, false, false, false, true⟩]
      (by decide) (by decide) (by decide)).1⟩

/-! ### Theorems: breakpoint resolution for_source_location (C9) -/

/-- C9, counterexample: the exact-column preference is applied per block,
not across the sequence.  Block 2 holds a halt point at 0x100 on
(file 0, line 42, column 7); block 3 holds the *exact* requested match
(file 0, line 42, column 5) at 0x200.  `for_source_location` returns
0x100 — block 2's column-ignored fallback — although an exact match
exists later in the sequence, where the claim requires 0x200. -/
theorem c9_for_source_location_counterexample :
    (Instr.for_source_location (fun _ => none) (fun _ => some (some 3, some 4))
        (fun a b => a == b)
        [⟨.c99, some ⟨1, (fun i => if i = 0 then some 7 else none),
          some [(0x90, 0x300,
            [⟨0x90, 0, some 40, .column 1, true, false, false, false⟩,
             ⟨0x100, 0, some 42, .column 7, true, false, false, false⟩,
             ⟨0x200, 0, some 42, .column 5, true, false, true, false⟩,
             ⟨0x300, 0, none, .column 1, false, false, false, true⟩])]⟩⟩]
        7 42 (some 5)
      = .ok { address := 0x100
              source_location :=
                { line := some 42, column := some (.column 7),
                  file := some 3, directory := some 4 } }) ∧
    (∃ ins ∈ Instr.flattenBlocks
        (Instr.from_line_sequence (fun _ => none) .c99 0x90 0x300
          [⟨0x90, 0, some 40, .column 1, true, false, false, false⟩,
           ⟨0x100, 0, some 42, .column 7, true, false, false, false⟩,
           ⟨0x200, 0, some 42, .column 5, true, false, true, false⟩,
           ⟨0x300, 0, none, .column 1, false, false, false, true⟩]).blocks,
      ins.role.is_halt_location = true ∧ ins.file_index = 0 ∧
        ins.line = some 42 ∧ ins.column = .column 5 ∧ ins.address = 0x200) ∧
    (0x100 : Nat) ≠ 0x200 :=
  ⟨rfl, by decide, by decide⟩

/-- C9, amended: within the first matching unit, the first sequence whose
blocks produce a match wins, and the match is taken from the *first block*
(in block order) that contains any matching halt point: within that block
an exact (file, line, column) match is preferred, otherwise the block's
first (file, line) match is returned — even if a later block contains an
exact column match.  Whenever nothing is found (no matching unit, no
sequences, or no matching row), the returned error carries the requested
path, line and column. -/
theorem c9_for_source_location_block_preference (fdie : Instr.FunctionLookup)
    (fdir : FileDirLookup) (patheq : Nat → Nat → Bool) :
    (∀ (seq : Instr.Sequence) (mfi line c : Nat)
        (blocks1 : List Instr.Block) (b : Instr.Block)
        (blocks2 : List Instr.Block),
      seq.blocks = blocks1 ++ b :: blocks2 →
      (∀ b1 ∈ blocks1, b1.match_location (some mfi) line (some c) = none) →
      ∀ J, b.match_location (some mfi) line (some c) = some J →
      ∀ fd, fdir J.file_index = some fd →
      seq.haltpoint_near_location fdir (some mfi) line (some c)
        = some { address := J.address
                 source_location :=
                  { line := J.line, column := some J.column,
                    file := fd.1, directory := fd.2 } }) ∧
    (∀ (b : Instr.Block) (mfi line c : Nat) (J : Instr.Instruction),
      b.match_location (some mfi) line (some c) = some J →
      (b.instructions.find? (fun location =>
          location.role.is_halt_location &&
          some mfi == some location.file_index &&
          Instr.nonZeroNew line == location.line &&
          ColumnType.ofNat c == location.column) = some J ∨
        (b.instructions.find? (fun location =>
          location.role.is_halt_location &&
          some mfi == some location.file_index &&
          Instr.nonZeroNew line == location.line &&
          ColumnType.ofNat c == location.column) = none ∧
        b.instructions.find? (fun location =>
          location.role.is_halt_location &&
          some mfi == some location.file_index &&
          Instr.nonZeroNew line == location.line) = some J))) ∧
    (∀ (units : List Instr.UnitInfo) (path line : Nat) (column : Option Nat),
      (∃ bp, Instr.for_source_location fdie fdir patheq units path line column
          = .ok bp) ∨
      Instr.for_source_location fdie fdir patheq units path line column
        = .error (.other path line column)) := by
  refine ⟨?_, ?_, ?_⟩
  · intro seq mfi line c blocks1 b blocks2 hsplit h1 J hJ fd hfd
    unfold Instr.Sequence.haltpoint_near_location
    rw [hsplit, List.findSome?_append]
    have hnone : blocks1.findSome?
        (fun block => block.match_location (some mfi) line (some c)) = none :=
      List.findSome?_eq_none_iff.mpr h1
    rw [hnone, List.findSome?_cons]
    simp only [hJ]
    simp [hfd]
  · intro b mfi line c J hJ
    unfold Instr.Block.match_location at hJ
    replace hJ : (b.instructions.find? (fun location =>
        location.role.is_halt_location &&
        some mfi == some location.file_index &&
        Instr.nonZeroNew line == location.line &&
        ColumnType.ofNat c == location.column)).orElse
          (fun _ => b.instructions.find? (fun location =>
            location.role.is_halt_location &&
            some mfi == some location.file_index &&
            Instr.nonZeroNew line == location.line)) = some J := hJ
    cases hex : b.instructions.find? (fun location =>
        location.role.is_halt_location &&
        some mfi == some location.file_index &&
        Instr.nonZeroNew line == location.line &&
        ColumnType.ofNat c == location.column) with
    | some y =>
      left
      rw [hex] at hJ
      simpa [Option.orElse] using hJ
    | none =>
      right
      rw [hex] at hJ
      exact ⟨rfl, by simpa [Option.orElse] using hJ⟩
  · intro units
    induction units with
    | nil => intro path line column; right; rfl
    | cons u rest ih =>
      intro path line column
      cases hlp : u.line_program with
      | none => simpa [Instr.for_source_location, hlp] using ih path line column
      | some lp =>
        cases hmfi : lp.matching_file_index patheq path with
        | none =>
          simpa [Instr.for_source_location, hlp, hmfi] using ih path line column
        | some mfi =>
          cases hls : lp.line_sequences with
          | none =>
            simpa [Instr.for_source_location, hlp, hmfi, hls]
              using ih path line column
          | some seqs =>
            cases hfs : seqs.findSome? (fun sq =>
                (Instr.from_line_sequence fdie u.lang sq.1 sq.2.1
                  sq.2.2).haltpoint_near_location fdir (some mfi) line column) with
            | some bp =>
              left
              exact ⟨bp, by simp [Instr.for_source_location, hlp, hmfi, hls, hfs]⟩
            | none =>
              simpa [Instr.for_source_location, hlp, hmfi, hls, hfs]
                using ih path line column

/-- Witness for `c9_for_source_location_block_preference`: a two-block
sequence whose first block has no match and whose second holds an exact
match at address 5. -/
theorem c9_for_source_location_block_preference_witness :
    ((⟨0, 10, [⟨false, [], none, none⟩,
        ⟨false, [⟨5, 0, some 42, .column 5, .HaltPoint⟩], none, none⟩]⟩
          : Instr.Sequence).blocks
        = [⟨false, [], none, none⟩]
            ++ (⟨false, [⟨5, 0, some 42, .column 5, .HaltPoint⟩], none, none⟩
              : Instr.Block) :: []) ∧
    (∀ b1 ∈ [(⟨false, [], none, none⟩ : Instr.Block)],
      b1.match_location (some 0) 42 (some 5) = none) ∧
    ((⟨false, [⟨5, 0, some 42, .column 5, .HaltPoint⟩], none, none⟩
        : Instr.Block).match_location (some 0) 42 (some 5)
      = some ⟨5, 0, some 42, .column 5, .HaltPoint⟩) ∧
    ((fun _ => some (some 1, some 2)) (0 : Nat)
      = some ((some 1 : Option Nat), (some 2 : Option Nat))) ∧
    ((⟨0, 10, [⟨false, [], none, none⟩,
        ⟨false, [⟨5, 0, some 42, .column 5, .HaltPoint⟩], none, none⟩]⟩
          : Instr.Sequence).haltpoint_near_location
        (fun _ => some (some 1, some 2)) (some 0) 42 (some 5)
      = some { address := 5
               source_location :=
                { line := some 42, column := some (.column 5),
                  file := some 1, directory := some 2 } }) :=
  ⟨rfl, by decide, rfl, rfl,
    (c9_for_source_location_block_preference (fun _ => none)
        (fun _ => some (some 1, some 2)) (fun a b => a == b)).1
      ⟨0, 10, [⟨false, [], none, none⟩,
        ⟨false, [⟨5, 0, some 42, .column 5, .HaltPoint⟩], none, none⟩]⟩
      0 42 5 [⟨false, [], none, none⟩]
      ⟨false, [⟨5, 0, some 42, .column 5, .HaltPoint⟩], none, none⟩ []
      rfl (by decide) ⟨5, 0, some 42, .column 5, .HaltPoint⟩ rfl
      ((some 1 : Option Nat), (some 2 : Option Nat)) rfl⟩

/-- Witness for `c3_blocks_address_ordered` at the concrete equal-address
row stream (addresses 0x1000, 0x1000, 0x1004 are non-decreasing). -/
theorem c3_blocks_address_ordered_witness :
    (([(⟨0x1000, 1, some 1, .column 1, true, false, false, false⟩ : LineRow),
       ⟨0x1000, 1, some 2, .column 1, true, false, false, false⟩,
       ⟨0x1004, 1, none, .column 1, false, false, false, true⟩].map
        fun r => r.address).Pairwise (· ≤ ·)) ∧
    ((∀ b ∈ (Instr.from_line_sequence (fun _ => none) .c99 0x1000 0x1004
        [⟨0x1000, 1, some 1, .column 1, true, false, false, false⟩,
         ⟨0x1000, 1, some 2, .column 1, true, false, false, false⟩,
         ⟨0x1004, 1, none, .column 1, false, false, false, true⟩]).blocks,
        b.instructions ≠ [] ∧
        (b.instructions.map fun i => i.address).Pairwise (· ≤ ·)) ∧
    (Instr.from_line_sequence (fun _ => none) .c99 0x1000 0x1004
        [⟨0x1000, 1, some 1, .column 1, true, false, false, false⟩,
         ⟨0x1000, 1, some 2, .column 1, true, false, false, false⟩,
         ⟨0x1004, 1, none, .column 1, false, false, false, true⟩]).blocks.Pairwise
      (fun b1 b2 => ∀ i1 ∈ b1.instructions, ∀ i2 ∈ b2.instructions,
        i1.address ≤ i2.address)) :=
  ⟨by decide,
    c3_blocks_address_ordered (fun _ => none) .c99 0x1000 0x1004
      [⟨0x1000, 1, some 1, .column 1, true, false, false, false⟩,
       ⟨0x1000, 1, some 2, .column 1, true, false, false, false⟩,
       ⟨0x1004, 1, none, .column 1, false, false, false, true⟩] (by decide)⟩

end ProbeRs
